import Mathlib

/-!
# The reaction-driven help command of dgc (`help.go`)

A shallow embedding of `help.go`: the list renderer
`renderDefaultGeneralHelpEmbed`, the detail renderer
`renderDefaultSpecificHelpEmbed`, the path resolver inside
`specificHelpCommand`, the handler `generalHelpCommand` and the reaction
listener registered by `RegisterDefaultHelpCommand`.

Conventions of the embedding.

* A Go panic is an explicit result (`GoPanic`); a function that can panic
  returns `Except GoPanic _`, a handler records the panic in its `Outcome`.
* A `*Command` that may be nil is an `Option Command`; reading a field through
  nil is `GoPanic.nilDeref`.
* Go's `int` is modelled by `Int`. The two places where the handler does
  arithmetic on a page read from the store (`page-1`, `page+1`) wrap around at
  64 bits (`wrapInt`); inside the renderer the page has already been clamped
  into `[1, pageAmount]` and `pageAmount ≤ len(vCommands)`, so no wrap occurs.
* Calls to the messaging transport, to the session store and to the list
  renderer are logged, in program order, in a trace of `Effect`s.
* `time.Now()` is the parameter `now`.
-/

namespace Dgc

/-- Runtime panics the code of `help.go` can raise. -/
inductive GoPanic where
  /-- A field was read through a nil pointer. -/
  | nilDeref
  /-- An index expression was out of range (`router.Prefixes[0]`). -/
  | indexOutOfRange
  /-- A slice expression reached past the end of the slice. -/
  | sliceBounds
  deriving DecidableEq, Repr

/-- The fields of `Command` read by `help.go`. -/
inductive Command where
  | mk (Name : String) (Aliases : List String) (Description : String)
      (Usage : String) (Example : String) (Hidden : Bool)
      (SubCommands : List Command)

namespace Command

def Name : Command → String
  | mk n _ _ _ _ _ _ => n

def Aliases : Command → List String
  | mk _ a _ _ _ _ _ => a

def Description : Command → String
  | mk _ _ d _ _ _ _ => d

def Usage : Command → String
  | mk _ _ _ u _ _ _ => u

def Example : Command → String
  | mk _ _ _ _ e _ _ => e

def Hidden : Command → Bool
  | mk _ _ _ _ _ h _ => h

def SubCommands : Command → List Command
  | mk _ _ _ _ _ _ s => s

end Command

/-- The type `discordgo.MessageEmbedField`, restricted to the fields set by `help.go`. -/
structure MessageEmbedField where
  Name : String
  Value : String
  Inline : Bool
  deriving DecidableEq, Repr

/-- The type `discordgo.MessageEmbed`, restricted to the fields set by `help.go`. -/
structure MessageEmbed where
  EmbedType : String
  Title : String
  Description : String
  Timestamp : String
  Color : Nat
  Fields : List MessageEmbedField
  deriving DecidableEq, Repr

/-- The fields of `Router` read by the renderers. -/
structure Router where
  Commands : List Command
  Prefixes : List String

/-- The list `vCommands` of `renderDefaultGeneralHelpEmbed` (lines 139-145):
the registered commands that are not hidden, in registration order. -/
def visibleCommands (router : Router) : List Command :=
  router.Commands.filter (fun command => !command.Hidden)

/-- The value `pageAmount` (line 148): `int(math.Ceil(float64(len(vCommands)) / 5))`.
For a slice length the float division and `Ceil` are exact, so this is the
integer ceiling of `len / 5`. -/
def pageAmount (router : Router) : Nat :=
  ((visibleCommands router).length + 4) / 5

/-- The field built for one command in the list embed (lines 168-172). -/
def listField (command : Command) : MessageEmbedField :=
  { Name := command.Name
    Value := "`" ++ command.Description ++ "`"
    Inline := false }

/-- The function `strconv.Itoa`. -/
def itoa (i : Int) : String :=
  toString i

/-- The function `renderDefaultGeneralHelpEmbed` (lines 134-185).

The slice expression `vCommands[startingIndex:endingIndex]` panics in Go when
`endingIndex` exceeds the capacity; when it lies between the length and the
capacity the window ends in nil pointers and the loop of line 166 reads
`command.Hidden` through nil. Both outcomes are a panic before the function
returns and are reported here as `GoPanic.sliceBounds`. -/
def renderDefaultGeneralHelpEmbed (router : Router) (now : String) (page : Int) :
    Except GoPanic (MessageEmbed × Int) :=
  let commands := router.Commands
  match router.Prefixes with
  | [] => .error .indexOutOfRange
  | pfx :: _ =>
    let vCommands := commands.filter (fun command => !command.Hidden)
    let pageAmount : Int := ((vCommands.length + 4) / 5 : Nat)
    let page := if page > pageAmount then pageAmount else page
    let page := if page ≤ 0 then 1 else page
    let startingIndex := (page - 1) * 5
    let endingIndex := if page = pageAmount then (vCommands.length : Int) else startingIndex + 5
    if startingIndex < 0 ∨ endingIndex < startingIndex ∨ (vCommands.length : Int) < endingIndex then
      .error .sliceBounds
    else
      let displayCommands :=
        (vCommands.drop startingIndex.toNat).take (endingIndex.toNat - startingIndex.toNat)
      let fields := (displayCommands.filter (fun command => !command.Hidden)).map listField
      .ok ({ EmbedType := "rich"
             Title := "Command List (Page " ++ itoa page ++ "/" ++ itoa pageAmount ++ ")"
             Description := "These are all the available commands. Type `" ++ pfx ++
               "help <command name>` to find out more about a specific command."
             Timestamp := now
             Color := 0xffff00
             Fields := fields }, page)

/-- The error embed of `renderDefaultSpecificHelpEmbed` (lines 194-206). -/
def errorEmbed (pfx now : String) : MessageEmbed :=
  { EmbedType := "rich"
    Title := "Error"
    Description := ""
    Timestamp := now
    Color := 0xff0000
    Fields := [{ Name := "Message"
                 Value := "```The given command doesn't exist. Type `" ++ pfx ++
                   "help` for a list of available commands.```"
                 Inline := false }] }

/-- The fields appended after `Name` by `renderDefaultSpecificHelpEmbed`
(lines 224-271), in program order. The tests `len(s) > 0` on strings are
tests for a non-empty string. -/
def detailOptionalFields (pfx : String) (command : Command) : List MessageEmbedField :=
  (if command.SubCommands.length > 0 then
    [{ Name := "Sub Commands"
       Value := "`" ++ "`, `".intercalate
         ((command.SubCommands.filter (fun subCommand => !subCommand.Hidden)).map Command.Name) ++ "`"
       Inline := false }]
   else []) ++
  (if command.Aliases.length > 0 then
    [{ Name := "Aliases"
       Value := "`" ++ "`, `".intercalate command.Aliases ++ "`"
       Inline := false }]
   else []) ++
  (if command.Description.length > 0 then
    [{ Name := "Description"
       Value := "```" ++ command.Description ++ "```"
       Inline := false }]
   else []) ++
  (if command.Usage.length > 0 then
    [{ Name := "Usage"
       Value := "```" ++ pfx ++ command.Usage ++ "```"
       Inline := false }]
   else []) ++
  (if command.Example.length > 0 then
    [{ Name := "Example"
       Value := "```" ++ pfx ++ command.Example ++ "```"
       Inline := false }]
   else [])

/-- The function `renderDefaultSpecificHelpEmbed` (lines 188-274); `pfxs`
is `ctx.Router.Prefixes` and a nil `command` is `none`. -/
def renderDefaultSpecificHelpEmbed (pfxs : List String) (now : String)
    (command : Option Command) : Except GoPanic MessageEmbed :=
  match pfxs with
  | [] => .error .indexOutOfRange
  | pfx :: _ =>
    match command with
    | none => .ok (errorEmbed pfx now)
    | some command =>
      .ok { EmbedType := "rich"
            Title := "Command Information"
            Description := "Displaying the information for the `" ++ command.Name ++ "` command."
            Timestamp := now
            Color := 0xffff00
            Fields := { Name := "Name", Value := "`" ++ command.Name ++ "`", Inline := false } ::
              detailOptionalFields pfx command }

/-- The two lookups used by `specificHelpCommand`, `Router.GetCmd` and
`Command.GetSubCmd`. Their code is not part of `help.go`; they are parameters
of the embedding. A nil result is `none`. -/
structure CommandIndex where
  GetCmd : String → Option Command
  GetSubCmd : Command → String → Option Command

/-- Modelled from the spec: the lookups `Router.GetCmd` and `Command.GetSubCmd`,
which are not in `help.go`. The top-level lookup finds a registered command by
exact name, the subcommand lookup finds a subcommand of the given command by
name; a miss returns nothing. -/
def nameIndex (router : Router) : CommandIndex where
  GetCmd := fun name => router.Commands.find? (fun command => command.Name == name)
  GetSubCmd := fun command name =>
    command.SubCommands.find? (fun subCommand => subCommand.Name == name)

/-- Iterations `index ≥ 1` of the loop of `specificHelpCommand` (lines 123-126)
over the remaining tokens, `command` being the candidate held so far.
`command.GetSubCmd` on a nil candidate reads the subcommands through nil, and
`c.Hidden` on a nil lookup result is a nil dereference. -/
def resolveSubCommands (index : CommandIndex) :
    Option Command → List String → Except GoPanic (Option Command)
  | command, [] => .ok command
  | none, _ :: _ => .error .nilDeref
  | some command, commandName :: rest =>
    match index.GetSubCmd command commandName with
    | none => .error .nilDeref
    | some c => resolveSubCommands index (if !c.Hidden then some c else some command) rest

/-- The loop of `specificHelpCommand` (lines 114-127) over `commandNames`:
the value of `command` when the loop ends, or the panic that ends it. -/
def resolveCommand (index : CommandIndex) : List String → Except GoPanic (Option Command)
  | [] => .ok none
  | commandName :: rest =>
    match index.GetCmd commandName with
    | none => .error .nilDeref
    | some c => resolveSubCommands index (if !c.Hidden then some c else none) rest

/-- Splitting at every space, `cur` holding the current token reversed. -/
def splitOnSpaceAux (cur : List Char) : List Char → List String
  | [] => [String.mk cur.reverse]
  | c :: cs =>
    if c = ' ' then String.mk cur.reverse :: splitOnSpaceAux [] cs
    else splitOnSpaceAux (c :: cur) cs

/-- The call `strings.Split(raw, " ")` of line 111. -/
def splitOnSpace (raw : String) : List String :=
  splitOnSpaceAux [] raw.data

/-- The session store `router.Storage["dgc_helpMessages"]`: the page stored
under each key, if any. -/
abbrev Store := String → Option Int

/-- Modelled from the spec: the store operation `Get`, whose backend is not in
`help.go`: the stored page and whether the key is present. -/
def Store.Get (store : Store) (key : String) : Option Int :=
  store key

/-- Modelled from the spec: the store operation `Set`, whose backend is not in
`help.go`: the key is bound to the page, every other key is left as it is. -/
def Store.Set (store : Store) (key : String) (page : Int) : Store :=
  fun k => if k = key then some page else store k

/-- The empty session store. -/
def Store.empty : Store :=
  fun _ => none

/-- The calls a handler makes, logged in program order. -/
inductive Effect where
  | storeGet (key : String)
  | storeSet (key : String) (page : Int)
  | renderList (page : Int)
  | channelMessageSendEmbed (channelID : String) (embed : MessageEmbed)
  | channelMessageEditEmbed (channelID messageID : String) (embed : MessageEmbed)
  | channelMessageDelete (channelID messageID : String)
  | messageReactionAdd (channelID messageID emoji : String)
  | messageReactionRemove (channelID messageID emoji userID : String)
  deriving DecidableEq, Repr

/-- Whether an effect is a call to the messaging transport. -/
def Effect.isTransport : Effect → Bool
  | .storeGet _ => false
  | .storeSet _ _ => false
  | .renderList _ => false
  | _ => true

/-- What a handler leaves behind: the session store, the calls it made and the
panic that ended it, if any. -/
structure Outcome where
  store : Store
  trace : List Effect
  panic : Option GoPanic

/-- The parts of `Ctx` read by the help handlers: the router, the channel and
author of the invoking message, and the results of `ctx.Arguments.Amount()`
and `ctx.Arguments.Raw()`. -/
structure Ctx where
  Router : Router
  ChannelID : String
  AuthorID : String
  ArgumentsAmount : Nat
  ArgumentsRaw : String

/-- The function `specificHelpCommand` (lines 109-131). -/
def specificHelpCommand (index : CommandIndex) (now : String) (store : Store) (ctx : Ctx) :
    Outcome :=
  let commandNames := splitOnSpace ctx.ArgumentsRaw
  match resolveCommand index commandNames with
  | .error e => { store := store, trace := [], panic := some e }
  | .ok command =>
    match renderDefaultSpecificHelpEmbed ctx.Router.Prefixes now command with
    | .error e => { store := store, trace := [], panic := some e }
    | .ok embed =>
      { store := store
        trace := [.channelMessageSendEmbed ctx.ChannelID embed]
        panic := none }

/-- The session key `channelID + ":" + messageID + ":" + userID` (lines 30, 67, 105). -/
def sessionKey (channelID messageID userID : String) : String :=
  channelID ++ ":" ++ messageID ++ ":" ++ userID

/-- The emoji of the three navigation reactions, as written in `help.go`. -/
def leftArrow : String := "\u2B05\uFE0F"

def crossMark : String := "\u274C"

def rightArrow : String := "\u27A1\uFE0F"

/-- The function `generalHelpCommand` (lines 84-106). `sent` is the ID of the
message returned by `ChannelMessageSendEmbed`, or `none` when the call fails
and returns a nil message (reading `message.ID` then panics). -/
def generalHelpCommand (index : CommandIndex) (now : String) (sent : Option String)
    (store : Store) (ctx : Ctx) : Outcome :=
  if ctx.ArgumentsAmount > 0 then
    specificHelpCommand index now store ctx
  else
    let channelID := ctx.ChannelID
    match renderDefaultGeneralHelpEmbed ctx.Router now 1 with
    | .error e => { store := store, trace := [.renderList 1], panic := some e }
    | .ok (embed, _) =>
      match sent with
      | none =>
        { store := store
          trace := [.renderList 1, .channelMessageSendEmbed channelID embed]
          panic := some .nilDeref }
      | some messageID =>
        { store := store.Set (sessionKey channelID messageID ctx.AuthorID) 1
          trace := [.renderList 1, .channelMessageSendEmbed channelID embed,
            .messageReactionAdd channelID messageID leftArrow,
            .messageReactionAdd channelID messageID crossMark,
            .messageReactionAdd channelID messageID rightArrow,
            .storeSet (sessionKey channelID messageID ctx.AuthorID) 1]
          panic := none }

/-- The width of Go's `int` on 64-bit platforms. -/
def intBits : Nat := 64

/-- The largest value of Go's `int`. -/
def maxInt : Int := 2 ^ (intBits - 1) - 1

/-- Two's-complement wrap-around of an `int` result. -/
def wrapInt (x : Int) : Int :=
  (x + 2 ^ (intBits - 1)) % 2 ^ intBits - 2 ^ (intBits - 1)

/-- The fields of `discordgo.MessageReactionAdd` read by the listener. -/
structure MessageReactionAdd where
  ChannelID : String
  MessageID : String
  UserID : String
  EmojiName : String

/-- The navigation branch shared by the cases of lines 42-50 and 55-63: render
at `requested`, edit the message, remove the reaction, then fall through to
the store write of line 67. -/
def navigate (router : Router) (now : String) (store : Store) (event : MessageReactionAdd)
    (key : String) (requested : Int) : Outcome :=
  match renderDefaultGeneralHelpEmbed router now requested with
  | .error e => { store := store, trace := [.storeGet key, .renderList requested], panic := some e }
  | .ok (embed, newPage) =>
    { store := store.Set key newPage
      trace := [.storeGet key, .renderList requested,
        .channelMessageEditEmbed event.ChannelID event.MessageID embed,
        .messageReactionRemove event.ChannelID event.MessageID event.EmojiName event.UserID,
        .storeSet key newPage]
      panic := none }

/-- The reaction listener registered by `RegisterDefaultHelpCommand`
(lines 18-68). `botID` is `session.State.User.ID`. -/
def reactionAddHandler (router : Router) (botID : String) (now : String) (store : Store)
    (event : MessageReactionAdd) : Outcome :=
  let channelID := event.ChannelID
  let messageID := event.MessageID
  if event.UserID = botID then
    { store := store, trace := [], panic := none }
  else
    let key := sessionKey channelID messageID event.UserID
    match store.Get key with
    | none => { store := store, trace := [.storeGet key], panic := none }
    | some page =>
      if page ≤ 0 then
        { store := store, trace := [.storeGet key], panic := none }
      else if event.EmojiName = leftArrow then
        navigate router now store event key (wrapInt (page - 1))
      else if event.EmojiName = crossMark then
        { store := store.Set key page
          trace := [.storeGet key, .channelMessageDelete channelID messageID, .storeSet key page]
          panic := none }
      else if event.EmojiName = rightArrow then
        navigate router now store event key (wrapInt (page + 1))
      else
        { store := store.Set key page
          trace := [.storeGet key, .storeSet key page]
          panic := none }

/-- The effective page in the words of the specification:
`clamp(p, 1, max(pageCount, 1))`. -/
def specEffectivePage (router : Router) (p : Int) : Int :=
  max 1 (min p (max (pageAmount router : Int) 1))

/-- The page window in the words of the specification: the visible commands at
indices `[(q-1)*5, min(q*5, n))`. -/
def specPageWindow (router : Router) (q : Nat) : List Command :=
  ((visibleCommands router).drop ((q - 1) * 5)).take
    (min (q * 5) (visibleCommands router).length - (q - 1) * 5)

/-- A command with the given name and visibility, and nothing else set. -/
def plainCommand (name : String) (hidden : Bool) : Command :=
  Command.mk name [] "" "" "" hidden []

/-- A router with prefix `!` whose commands are the given ones. -/
def routerOf (commands : List Command) : Router :=
  { Commands := commands, Prefixes := ["!"] }

/-- Twelve visible commands named `0` to `11`. -/
def twelveCommands : List Command :=
  (List.range 12).map (fun i => plainCommand (toString i) false)

/-- Twelve visible commands with a hidden command before, between and after them. -/
def mixedCommands : List Command :=
  plainCommand "h1" true :: (twelveCommands.take 7 ++ plainCommand "h2" true ::
    (twelveCommands.drop 7 ++ [plainCommand "h3" true]))

/-- One step of the resolver in the words of the specification: look the token
up among the subcommands of the candidate; advance to the found subcommand
when it is not hidden, keep the candidate when it is hidden or not found. -/
def specResolveStep (index : CommandIndex) (candidate : Command) (token : String) : Command :=
  match index.GetSubCmd candidate token with
  | some sub => if sub.Hidden then candidate else sub
  | none => candidate

/-- Whether every token is found among the subcommands of the candidate held
when the token is processed. -/
def allFound (index : CommandIndex) : Command → List String → Bool
  | _, [] => true
  | candidate, token :: rest =>
    match index.GetSubCmd candidate token with
    | some _ => allFound index (specResolveStep index candidate token) rest
    | none => false

/-- The command reached by following the tokens down the tree when every token
is found and not hidden, and nothing otherwise. -/
def descend (index : CommandIndex) : Command → List String → Option Command
  | command, [] => some command
  | command, token :: rest =>
    match index.GetSubCmd command token with
    | some sub => if sub.Hidden then none else descend index sub rest
    | none => none

/-- The tree of the resolver example: `A` visible, its only subcommand `B`
hidden, and `C`, the visible subcommand of `B`. -/
def quirkC : Command := Command.mk "C" [] "" "" "" false []

def quirkB : Command := Command.mk "B" [] "" "" "" true [quirkC]

def quirkA : Command := Command.mk "A" [] "" "" "" false [quirkB]

/-- A help invocation in channel `c` by author `u` with the given raw arguments. -/
def ctxOf (router : Router) (amount : Nat) (raw : String) : Ctx :=
  { Router := router, ChannelID := "c", AuthorID := "u", ArgumentsAmount := amount,
    ArgumentsRaw := raw }

/-- A small command tree: `admin` with the visible subcommand `user`, which has
the visible subcommand `ban` and the hidden subcommand `purge`. -/
def cmdBan : Command := Command.mk "ban" [] "" "" "" false []

def cmdPurge : Command := Command.mk "purge" [] "" "" "" true []

def cmdUser : Command := Command.mk "user" [] "" "" "" false [cmdBan, cmdPurge]

def cmdAdmin : Command := Command.mk "admin" [] "" "" "" false [cmdUser]

/-- What the help subsystem reacts to: an invocation of the help command (the
channel and author of the message, the amount and raw text of its arguments,
the render time and the ID of the message the transport returns, if any), or
a reaction added to a message. -/
inductive HelpEvent where
  | invoke (channelID authorID : String) (amount : Nat) (raw : String) (now : String)
      (sent : Option String)
  | reaction (event : MessageReactionAdd) (now : String)

/-- The session store after one event is handled. A handler that panics has
written nothing. -/
def stepStore (router : Router) (index : CommandIndex) (botID : String) (store : Store) :
    HelpEvent → Store
  | .invoke channelID authorID amount raw now sent =>
    (generalHelpCommand index now sent store
      { Router := router, ChannelID := channelID, AuthorID := authorID,
        ArgumentsAmount := amount, ArgumentsRaw := raw }).store
  | .reaction event now => (reactionAddHandler router botID now store event).store

/-- The session store after a sequence of events is handled, one after the other. -/
def runStore (router : Router) (index : CommandIndex) (botID : String) (store : Store)
    (events : List HelpEvent) : Store :=
  events.foldl (stepStore router index botID) store

/-- A reaction event in channel `c` on message `m`. -/
def reactionOf (userID emoji : String) : MessageReactionAdd :=
  { ChannelID := "c", MessageID := "m", UserID := userID, EmojiName := emoji }

/-- A store holding page 2 for user `u` on message `m` of channel `c`. -/
def storeAtTwo : Store :=
  Store.empty.Set (sessionKey "c" "m" "u") 2

/-- The session invariant: every stored page lies in `[1, pageAmount]`. -/
def PagesInRange (router : Router) (store : Store) : Prop :=
  ∀ key page, store.Get key = some page → 1 ≤ page ∧ page ≤ pageAmount router

/-- A help invocation without arguments answered by message `m`, followed by
three right-arrow reactions and one cross-mark reaction of the author. -/
def sampleEvents : List HelpEvent :=
  [.invoke "c" "u" 0 "" "" (some "m"), .reaction (reactionOf "u" rightArrow) "",
    .reaction (reactionOf "u" rightArrow) "", .reaction (reactionOf "u" rightArrow) "",
    .reaction (reactionOf "u" crossMark) ""]

/-- A command `group` whose two subcommands are both hidden. -/
def cmdGroup : Command :=
  Command.mk "group" [] "" "" "" false [plainCommand "s1" true, plainCommand "s2" true]

/-- A command with aliases, description, usage and example set, and one hidden
and two visible subcommands. -/
def cmdFull : Command :=
  Command.mk "full" ["f", "fl"] "does it all" "full <arg>" "full 1" false
    [plainCommand "one" false, plainCommand "two" true, plainCommand "three" false]

/-- The names of the sections of the detail embed, in the order of the code. -/
def detailSectionNames : List String :=
  ["Name", "Sub Commands", "Aliases", "Description", "Usage", "Example"]

/-- The fields shown on page `q` of the command list; none when the renderer
panics. -/
def pageFields (router : Router) (now : String) (q : Nat) : List MessageEmbedField :=
  match renderDefaultGeneralHelpEmbed router now q with
  | .ok (embed, _) => embed.Fields
  | .error _ => []

/-- The fields of pages `1, 2, ..., k` of the command list, one page after the other. -/
def concatPages (router : Router) (now : String) : Nat → List MessageEmbedField
  | 0 => []
  | k + 1 => concatPages router now k ++ pageFields router now (k + 1)

theorem render_visible (router : Router) (now : String) (p : Int) (pfx : String)
    (rest : List String) (hp : router.Prefixes = pfx :: rest)
    (hn : 1 ≤ (visibleCommands router).length) :
    ∃ embed, renderDefaultGeneralHelpEmbed router now p =
        .ok (embed, specEffectivePage router p) ∧
      embed.Fields = (specPageWindow router (specEffectivePage router p).toNat).map listField := by
  have hv : router.Commands.filter (fun command => !command.Hidden) = visibleCommands router := rfl
  have hall : ∀ c ∈ visibleCommands router, (!c.Hidden) = true := fun c hc =>
    (List.mem_filter.mp hc).2
  unfold renderDefaultGeneralHelpEmbed
  simp only [hp, hv]
  unfold specEffectivePage specPageWindow pageAmount
  generalize visibleCommands router = vis at hn hall ⊢
  have hP1 : 1 ≤ (vis.length + 4) / 5 := by omega
  have hP2 : 5 * ((vis.length + 4) / 5 - 1) < vis.length := by omega
  have hP3 : vis.length ≤ 5 * ((vis.length + 4) / 5) := by omega
  generalize (vis.length + 4) / 5 = P at hP1 hP2 hP3 ⊢
  have hq : (if (if p > (P : Int) then (P : Int) else p) ≤ 0 then 1
      else if p > (P : Int) then (P : Int) else p) = max 1 (min p (max (P : Int) 1)) := by
    split_ifs <;> omega
  rw [hq]
  obtain ⟨q, hq1, hq2, hq3⟩ : ∃ q : Nat, max 1 (min p (max (P : Int) 1)) = (q : Int) ∧ 1 ≤ q ∧ q ≤ P :=
    ⟨(max 1 (min p (max (P : Int) 1))).toNat, by omega, by omega, by omega⟩
  rw [hq1]
  have hguard : ¬ (((q : Int) - 1) * 5 < 0 ∨
      (if (q : Int) = (P : Int) then (vis.length : Int) else ((q : Int) - 1) * 5 + 5) <
        ((q : Int) - 1) * 5 ∨
      (vis.length : Int) <
        if (q : Int) = (P : Int) then (vis.length : Int) else ((q : Int) - 1) * 5 + 5) := by
    split_ifs <;> omega
  rw [if_neg hguard]
  refine ⟨_, rfl, ?_⟩
  have hfilter : ∀ i k : Nat, ((vis.drop i).take k).filter (fun command => !command.Hidden) =
      (vis.drop i).take k := by
    intro i k
    rw [List.filter_eq_self]
    intro a ha
    exact hall a (List.mem_of_mem_drop (List.mem_of_mem_take ha))
  simp only [hfilter, Int.toNat_ofNat]
  have hstart : (((q : Int) - 1) * 5).toNat = (q - 1) * 5 := by omega
  have hlen : ((if (q : Int) = (P : Int) then (vis.length : Int) else ((q : Int) - 1) * 5 + 5).toNat -
      (q - 1) * 5) = min (q * 5) vis.length - (q - 1) * 5 := by
    split_ifs <;> omega
  rw [hstart, hlen]

theorem render_no_visible (router : Router) (now : String) (p : Int) (pfx : String)
    (rest : List String) (hp : router.Prefixes = pfx :: rest)
    (hn : visibleCommands router = []) :
    renderDefaultGeneralHelpEmbed router now p = .error .sliceBounds := by
  have hv : router.Commands.filter (fun command => !command.Hidden) = [] := hn
  unfold renderDefaultGeneralHelpEmbed
  simp only [hp, hv, List.length_nil]
  rw [if_pos]
  right; right
  split_ifs <;> omega

/-- C1, at the failing input: with no visible command (`pageAmount = 0`) the
renderer returns no effective page at all, whatever page is requested: the
page is set to 1 and the slice `vCommands[0:5]` of the empty list panics. -/
theorem renderDefaultGeneralHelpEmbed_no_page_of_no_visible (router : Router) (now : String)
    (p : Int) (pfx : String) (rest : List String) (hp : router.Prefixes = pfx :: rest)
    (hn : (visibleCommands router).length = 0) :
    specEffectivePage router p = 1 ∧
      ∀ embed q, renderDefaultGeneralHelpEmbed router now p ≠ .ok (embed, q) := by
  have hnil : visibleCommands router = [] := List.length_eq_zero.mp hn
  refine ⟨?_, ?_⟩
  · unfold specEffectivePage pageAmount
    rw [hn]
    omega
  · intro embed q h
    rw [render_no_visible router now p pfx rest hp hnil] at h
    cases h

theorem renderDefaultGeneralHelpEmbed_no_page_of_no_visible_witness :
    (routerOf [plainCommand "secret" true]).Prefixes = "!" :: [] ∧
      (visibleCommands (routerOf [plainCommand "secret" true])).length = 0 ∧
      (specEffectivePage (routerOf [plainCommand "secret" true]) 99 = 1 ∧
        ∀ embed q, renderDefaultGeneralHelpEmbed (routerOf [plainCommand "secret" true]) "" 99 ≠
          .ok (embed, q)) :=
  ⟨rfl, rfl, renderDefaultGeneralHelpEmbed_no_page_of_no_visible _ "" 99 "!" [] rfl rfl⟩

/-- The positive half of C1: with at least one visible command the returned page is
`clamp(p, 1, pageCount)`. -/
theorem render_page_of_visible (router : Router) (now : String) (p : Int) (pfx : String)
    (rest : List String) (hp : router.Prefixes = pfx :: rest)
    (hn : 1 ≤ (visibleCommands router).length) :
    ∃ embed, renderDefaultGeneralHelpEmbed router now p =
      .ok (embed, max 1 (min p (pageAmount router))) := by
  obtain ⟨embed, h, _⟩ := render_visible router now p pfx rest hp hn
  refine ⟨embed, ?_⟩
  rw [h]
  have : 1 ≤ pageAmount router := by unfold pageAmount; omega
  unfold specEffectivePage
  congr 2
  omega

/-- C2: with at least one visible command, for every requested page `p` the
renderer returns the effective page `q = clamp(p, 1, pageCount)`, which lies
in `[1, pageCount]`, and the fields of the embed are, in order, the fields of
the visible commands at indices `[(q-1)*5, min(q*5, n))`, a non-empty window
of `min(q*5, n) - (q-1)*5` commands; the field names are those commands'
names and every command shown is a registered command that is not hidden. -/
theorem renderDefaultGeneralHelpEmbed_fields_eq_window (router : Router) (now : String)
    (p : Int) (pfx : String) (rest : List String) (hp : router.Prefixes = pfx :: rest)
    (hn : 1 ≤ (visibleCommands router).length) :
    ∃ embed q, renderDefaultGeneralHelpEmbed router now p = .ok (embed, q) ∧ 1 ≤ q ∧
      q ≤ pageAmount router ∧ q = max 1 (min p (pageAmount router)) ∧
      (q.toNat - 1) * 5 < min (q.toNat * 5) (visibleCommands router).length ∧
      embed.Fields.length =
        min (q.toNat * 5) (visibleCommands router).length - (q.toNat - 1) * 5 ∧
      embed.Fields ≠ [] ∧
      embed.Fields = (specPageWindow router q.toNat).map listField ∧
      embed.Fields.map MessageEmbedField.Name =
        (specPageWindow router q.toNat).map Command.Name ∧
      specPageWindow router q.toNat =
        ((router.Commands.filter (fun c => !c.Hidden)).drop ((q.toNat - 1) * 5)).take
          (min (q.toNat * 5) (router.Commands.filter (fun c => !c.Hidden)).length -
            (q.toNat - 1) * 5) ∧
      ∀ c ∈ specPageWindow router q.toNat, c ∈ router.Commands ∧ c.Hidden = false := by
  obtain ⟨embed, h, hf⟩ := render_visible router now p pfx rest hp hn
  have hP : 1 ≤ pageAmount router := by unfold pageAmount; omega
  have hq1 : 1 ≤ specEffectivePage router p := by unfold specEffectivePage; omega
  have hq2 : specEffectivePage router p ≤ pageAmount router := by
    unfold specEffectivePage; omega
  have hq3 : specEffectivePage router p = max 1 (min p (pageAmount router)) := by
    unfold specEffectivePage; omega
  have hstart : ((specEffectivePage router p).toNat - 1) * 5 <
      min ((specEffectivePage router p).toNat * 5) (visibleCommands router).length := by
    unfold pageAmount at hq2
    omega
  have hlen : embed.Fields.length =
      min ((specEffectivePage router p).toNat * 5) (visibleCommands router).length -
        ((specEffectivePage router p).toNat - 1) * 5 := by
    rw [hf]
    unfold specPageWindow
    rw [List.length_map, List.length_take, List.length_drop]
    omega
  refine ⟨embed, specEffectivePage router p, h, hq1, hq2, hq3, hstart, hlen, ?_, hf, ?_, rfl, ?_⟩
  · intro hnil
    rw [hnil, List.length_nil] at hlen
    omega
  · rw [hf, List.map_map]
    rfl
  · intro c hc
    have hmem : c ∈ visibleCommands router :=
      List.mem_of_mem_drop (List.mem_of_mem_take hc)
    have := List.mem_filter.mp hmem
    exact ⟨this.1, by simpa using this.2⟩

theorem renderDefaultGeneralHelpEmbed_fields_eq_window_witness :
    (routerOf mixedCommands).Prefixes = "!" :: [] ∧
      1 ≤ (visibleCommands (routerOf mixedCommands)).length ∧
      (visibleCommands (routerOf mixedCommands)).map Command.Name =
        ["0", "1", "2", "3", "4", "5", "6", "7", "8", "9", "10", "11"] ∧
      (renderDefaultGeneralHelpEmbed (routerOf mixedCommands) "" 2).toOption.map
          (fun r => (r.1.Fields.map MessageEmbedField.Name, r.2)) =
        some (["5", "6", "7", "8", "9"], 2) ∧
      (renderDefaultGeneralHelpEmbed (routerOf mixedCommands) "" 99).toOption.map
          (fun r => (r.1.Fields.map MessageEmbedField.Name, r.2)) =
        some (["10", "11"], 3) ∧
      ∃ embed q, renderDefaultGeneralHelpEmbed (routerOf mixedCommands) "" 2 = .ok (embed, q) ∧
        1 ≤ q ∧ q ≤ pageAmount (routerOf mixedCommands) ∧
        q = max 1 (min 2 (pageAmount (routerOf mixedCommands))) ∧
        (q.toNat - 1) * 5 <
          min (q.toNat * 5) (visibleCommands (routerOf mixedCommands)).length ∧
        embed.Fields.length =
          min (q.toNat * 5) (visibleCommands (routerOf mixedCommands)).length -
            (q.toNat - 1) * 5 ∧
        embed.Fields ≠ [] ∧
        embed.Fields = (specPageWindow (routerOf mixedCommands) q.toNat).map listField ∧
        embed.Fields.map MessageEmbedField.Name =
          (specPageWindow (routerOf mixedCommands) q.toNat).map Command.Name ∧
        specPageWindow (routerOf mixedCommands) q.toNat =
          (((routerOf mixedCommands).Commands.filter (fun c => !c.Hidden)).drop
            ((q.toNat - 1) * 5)).take
            (min (q.toNat * 5) ((routerOf mixedCommands).Commands.filter
              (fun c => !c.Hidden)).length - (q.toNat - 1) * 5) ∧
        ∀ c ∈ specPageWindow (routerOf mixedCommands) q.toNat,
          c ∈ (routerOf mixedCommands).Commands ∧ c.Hidden = false :=
  ⟨rfl, by decide, by decide, by decide, by decide,
    renderDefaultGeneralHelpEmbed_fields_eq_window _ "" 2 "!" [] rfl (by decide)⟩

/-- C3: with `n ≥ 1` visible commands the returned page `q` lies in
`[1, pageCount]` (and is the requested page when that lies in the range); the
embed has exactly 5 fields when `q < pageCount` and exactly
`n - 5*(pageCount-1)` fields when `q = pageCount`, a number between 1 and 5. -/
theorem renderDefaultGeneralHelpEmbed_field_count (router : Router) (now : String)
    (p : Int) (pfx : String) (rest : List String) (hp : router.Prefixes = pfx :: rest)
    (hn : 1 ≤ (visibleCommands router).length) :
    ∃ embed q, renderDefaultGeneralHelpEmbed router now p = .ok (embed, q) ∧
      1 ≤ q ∧ q ≤ pageAmount router ∧
      (1 ≤ p → p ≤ pageAmount router → q = p) ∧
      (q < pageAmount router → embed.Fields.length = 5) ∧
      (q = pageAmount router →
        (embed.Fields.length : Int) =
          (visibleCommands router).length - 5 * ((pageAmount router : Int) - 1)) ∧
      1 ≤ ((visibleCommands router).length : Int) - 5 * ((pageAmount router : Int) - 1) ∧
      ((visibleCommands router).length : Int) - 5 * ((pageAmount router : Int) - 1) ≤ 5 := by
  obtain ⟨embed, h, hf⟩ := render_visible router now p pfx rest hp hn
  have hlen : embed.Fields.length =
      min (min ((specEffectivePage router p).toNat * 5) (visibleCommands router).length -
        ((specEffectivePage router p).toNat - 1) * 5)
        ((visibleCommands router).length - ((specEffectivePage router p).toNat - 1) * 5) := by
    rw [hf]
    unfold specPageWindow
    rw [List.length_map, List.length_take, List.length_drop]
  refine ⟨embed, specEffectivePage router p, h, ?_⟩
  rw [hlen]
  unfold specEffectivePage pageAmount
  generalize (visibleCommands router).length = n at hn
  refine ⟨by omega, by omega, fun _ _ => by omega, fun _ => by omega, fun _ => by omega,
    by omega, by omega⟩

theorem renderDefaultGeneralHelpEmbed_field_count_witness :
    (routerOf twelveCommands).Prefixes = "!" :: [] ∧
      1 ≤ (visibleCommands (routerOf twelveCommands)).length ∧
      ∃ embed q, renderDefaultGeneralHelpEmbed (routerOf twelveCommands) "" 3 = .ok (embed, q) ∧
        1 ≤ q ∧ q ≤ pageAmount (routerOf twelveCommands) ∧
        (1 ≤ (3 : Int) → (3 : Int) ≤ pageAmount (routerOf twelveCommands) → q = 3) ∧
        (q < pageAmount (routerOf twelveCommands) → embed.Fields.length = 5) ∧
        (q = pageAmount (routerOf twelveCommands) →
          (embed.Fields.length : Int) =
            (visibleCommands (routerOf twelveCommands)).length -
              5 * ((pageAmount (routerOf twelveCommands) : Int) - 1)) ∧
        1 ≤ ((visibleCommands (routerOf twelveCommands)).length : Int) -
          5 * ((pageAmount (routerOf twelveCommands) : Int) - 1) ∧
        ((visibleCommands (routerOf twelveCommands)).length : Int) -
          5 * ((pageAmount (routerOf twelveCommands) : Int) - 1) ≤ 5 :=
  ⟨rfl, by decide,
    renderDefaultGeneralHelpEmbed_field_count _ "" 3 "!" [] rfl (by decide)⟩

/-- C4, at the failing input: with no visible command the renderer panics for
every requested page, on the slice `vCommands[0:5]` of the empty list, and
returns neither a page nor an embed. -/
theorem renderDefaultGeneralHelpEmbed_panics_of_no_visible (router : Router) (now : String)
    (p : Int) (pfx : String) (rest : List String) (hp : router.Prefixes = pfx :: rest)
    (hn : visibleCommands router = []) :
    pageAmount router = 0 ∧
      renderDefaultGeneralHelpEmbed router now p = .error .sliceBounds := by
  refine ⟨?_, render_no_visible router now p pfx rest hp hn⟩
  unfold pageAmount
  rw [hn]
  rfl

theorem renderDefaultGeneralHelpEmbed_panics_of_no_visible_witness :
    (routerOf []).Prefixes = "!" :: [] ∧ visibleCommands (routerOf []) = [] ∧
      pageAmount (routerOf []) = 0 ∧
      renderDefaultGeneralHelpEmbed (routerOf []) "" 1 = .error .sliceBounds :=
  ⟨rfl, rfl, renderDefaultGeneralHelpEmbed_panics_of_no_visible _ "" 1 "!" [] rfl rfl⟩

/-- With 12 visible commands: page 99 is clamped to 3, page 1 shows 5 fields
and page 3 shows 2. -/
theorem render_twelve_examples :
    (renderDefaultGeneralHelpEmbed (routerOf twelveCommands) "" 99).toOption.map Prod.snd = some 3 ∧
      (renderDefaultGeneralHelpEmbed (routerOf twelveCommands) "" 1).toOption.map
        (fun r => r.1.Fields.length) = some 5 ∧
      (renderDefaultGeneralHelpEmbed (routerOf twelveCommands) "" 3).toOption.map
        (fun r => r.1.Fields.length) = some 2 := by
  refine ⟨?_, ?_, ?_⟩ <;> rfl

/-- C5, at the failing input: when the first token matches no registered
command, `specificHelpCommand` does not complete: reading `c.Hidden` on the
nil lookup result (line 118) panics, no candidate is returned and no embed is
sent, although the detail renderer would map an unset command to the fixed
error embed. -/
theorem specificHelpCommand_panics_of_unregistered (index : CommandIndex) (now : String)
    (store : Store) (ctx : Ctx) (name pfx : String) (rest : List String) (others : List String)
    (hsplit : splitOnSpace ctx.ArgumentsRaw = name :: rest)
    (hmiss : index.GetCmd name = none) (hp : ctx.Router.Prefixes = pfx :: others) :
    resolveCommand index (name :: rest) = .error .nilDeref ∧
      (specificHelpCommand index now store ctx).panic = some .nilDeref ∧
      (specificHelpCommand index now store ctx).trace = [] ∧
      renderDefaultSpecificHelpEmbed ctx.Router.Prefixes now none = .ok (errorEmbed pfx now) ∧
      (errorEmbed pfx now).Title = "Error" ∧ (errorEmbed pfx now).Color = 0xff0000 ∧
      (errorEmbed pfx now).Fields.map MessageEmbedField.Name = ["Message"] := by
  have hres : resolveCommand index (name :: rest) = .error .nilDeref := by
    simp only [resolveCommand, hmiss]
  refine ⟨hres, ?_, ?_, ?_, rfl, rfl, rfl⟩
  · simp only [specificHelpCommand, hsplit, hres]
  · simp only [specificHelpCommand, hsplit, hres]
  · simp only [renderDefaultSpecificHelpEmbed, hp]

theorem specificHelpCommand_panics_of_unregistered_witness :
    splitOnSpace (ctxOf (routerOf [plainCommand "help" false]) 1 "foo").ArgumentsRaw = "foo" :: [] ∧
      (nameIndex (routerOf [plainCommand "help" false])).GetCmd "foo" = none ∧
      (ctxOf (routerOf [plainCommand "help" false]) 1 "foo").Router.Prefixes = "!" :: [] ∧
      (resolveCommand (nameIndex (routerOf [plainCommand "help" false])) ("foo" :: []) =
          .error .nilDeref ∧
        (specificHelpCommand (nameIndex (routerOf [plainCommand "help" false])) "" Store.empty
          (ctxOf (routerOf [plainCommand "help" false]) 1 "foo")).panic = some .nilDeref ∧
        (specificHelpCommand (nameIndex (routerOf [plainCommand "help" false])) "" Store.empty
          (ctxOf (routerOf [plainCommand "help" false]) 1 "foo")).trace = [] ∧
        renderDefaultSpecificHelpEmbed
          (ctxOf (routerOf [plainCommand "help" false]) 1 "foo").Router.Prefixes "" none =
          .ok (errorEmbed "!" "") ∧
        (errorEmbed "!" "").Title = "Error" ∧ (errorEmbed "!" "").Color = 0xff0000 ∧
        (errorEmbed "!" "").Fields.map MessageEmbedField.Name = ["Message"]) :=
  ⟨by decide, rfl, rfl,
    specificHelpCommand_panics_of_unregistered _ "" Store.empty _ "foo" "!" [] []
      (by decide) rfl rfl⟩

/-- C6, at the failing input: with `A` visible, `A`'s subcommand `B` hidden and
`C` not a subcommand of `A`, the path `A B` resolves to `A` (the hidden step
keeps the candidate), but on the path `A B C` the lookup of `C` under `A`
returns nil and reading `c.Hidden` (line 124) panics: `specificHelpCommand`
resolves nothing and sends no embed. -/
theorem resolveCommand_panics_on_miss_after_hidden (index : CommandIndex) (a b : Command)
    (hA : index.GetCmd "A" = some a) (hAv : a.Hidden = false)
    (hB : index.GetSubCmd a "B" = some b) (hBh : b.Hidden = true)
    (hC : index.GetSubCmd a "C" = none) :
    resolveCommand index ["A", "B"] = .ok (some a) ∧
      resolveCommand index ["A", "B", "C"] = .error .nilDeref ∧
      ∀ (now : String) (store : Store) (ctx : Ctx),
        splitOnSpace ctx.ArgumentsRaw = ["A", "B", "C"] →
        (specificHelpCommand index now store ctx).panic = some .nilDeref ∧
          (specificHelpCommand index now store ctx).trace = [] := by
  have h2 : resolveCommand index ["A", "B"] = .ok (some a) := by
    simp [resolveCommand, resolveSubCommands, hA, hAv, hB, hBh]
  have h3 : resolveCommand index ["A", "B", "C"] = .error .nilDeref := by
    simp [resolveCommand, resolveSubCommands, hA, hAv, hB, hBh, hC]
  refine ⟨h2, h3, ?_⟩
  intro now store ctx hsplit
  simp only [specificHelpCommand, hsplit, h3, and_self]

theorem resolveCommand_panics_on_miss_after_hidden_witness :
    (nameIndex (routerOf [quirkA])).GetCmd "A" = some quirkA ∧ quirkA.Hidden = false ∧
      (nameIndex (routerOf [quirkA])).GetSubCmd quirkA "B" = some quirkB ∧
      quirkB.Hidden = true ∧
      (nameIndex (routerOf [quirkA])).GetSubCmd quirkA "C" = none ∧
      (nameIndex (routerOf [quirkA])).GetSubCmd quirkB "C" = some quirkC ∧
      splitOnSpace (ctxOf (routerOf [quirkA]) 3 "A B C").ArgumentsRaw = ["A", "B", "C"] ∧
      (resolveCommand (nameIndex (routerOf [quirkA])) ["A", "B"] = .ok (some quirkA) ∧
        resolveCommand (nameIndex (routerOf [quirkA])) ["A", "B", "C"] = .error .nilDeref ∧
        ∀ (now : String) (store : Store) (ctx : Ctx),
          splitOnSpace ctx.ArgumentsRaw = ["A", "B", "C"] →
          (specificHelpCommand (nameIndex (routerOf [quirkA])) now store ctx).panic =
              some .nilDeref ∧
            (specificHelpCommand (nameIndex (routerOf [quirkA])) now store ctx).trace = []) :=
  ⟨rfl, rfl, rfl, rfl, rfl, rfl, by decide,
    resolveCommand_panics_on_miss_after_hidden _ quirkA quirkB rfl rfl rfl rfl rfl⟩

theorem resolveSubCommands_eq_foldl (index : CommandIndex) (rest : List String) :
    ∀ candidate : Command, allFound index candidate rest = true →
      resolveSubCommands index (some candidate) rest =
        .ok (some (rest.foldl (specResolveStep index) candidate)) := by
  induction rest with
  | nil => intro candidate _; rfl
  | cons token rest ih =>
    intro candidate hfound
    unfold allFound at hfound
    cases hsub : index.GetSubCmd candidate token with
    | none => simp [hsub] at hfound
    | some sub =>
      simp only [hsub] at hfound
      have hstep : (if (!sub.Hidden) = true then some sub else some candidate) =
          some (specResolveStep index candidate token) := by
        unfold specResolveStep
        rw [hsub]
        cases hh : sub.Hidden <;> simp [hh]
      rw [List.foldl_cons, ← ih _ hfound]
      simp only [resolveSubCommands, hsub, hstep]

theorem foldl_eq_of_descend (index : CommandIndex) (rest : List String) :
    ∀ command deepest : Command, descend index command rest = some deepest →
      rest.foldl (specResolveStep index) command = deepest := by
  induction rest with
  | nil =>
    intro command deepest h
    simpa [descend] using h
  | cons token rest ih =>
    intro command deepest h
    unfold descend at h
    cases hsub : index.GetSubCmd command token with
    | none => simp [hsub] at h
    | some sub =>
      simp only [hsub] at h
      cases hh : sub.Hidden with
      | true => simp [hh] at h
      | false =>
        simp only [hh, Bool.false_eq_true, if_false] at h
        rw [List.foldl_cons]
        have : specResolveStep index command token = sub := by
          unfold specResolveStep
          rw [hsub]
          simp [hh]
        rw [this]
        exact ih sub deepest h

/-- C7: on a path whose first token names a non-hidden top-level command and
whose later tokens are all found under the candidate held at their step, the
loop of `specificHelpCommand` ends with the left fold of `specResolveStep`
from the first command (advance on a non-hidden match, keep on a hidden one),
and the embed sent is the detail embed of that command; when every match is
non-hidden this is the deepest command of the path. -/
theorem resolveCommand_eq_foldl (index : CommandIndex) (token : String) (rest : List String)
    (first : Command) (hfirst : index.GetCmd token = some first)
    (hvisible : first.Hidden = false) (hfound : allFound index first rest = true) :
    resolveCommand index (token :: rest) =
        .ok (some (rest.foldl (specResolveStep index) first)) ∧
      (∀ deepest, descend index first rest = some deepest →
        resolveCommand index (token :: rest) = .ok (some deepest)) ∧
      ∀ (now : String) (store : Store) (ctx : Ctx) (pfx : String) (others : List String),
        splitOnSpace ctx.ArgumentsRaw = token :: rest → ctx.Router.Prefixes = pfx :: others →
        ∃ embed, renderDefaultSpecificHelpEmbed ctx.Router.Prefixes now
            (some (rest.foldl (specResolveStep index) first)) = .ok embed ∧
          (specificHelpCommand index now store ctx).trace =
            [.channelMessageSendEmbed ctx.ChannelID embed] ∧
          (specificHelpCommand index now store ctx).panic = none := by
  have hres : resolveCommand index (token :: rest) =
      .ok (some (rest.foldl (specResolveStep index) first)) := by
    simp only [resolveCommand, hfirst, hvisible, Bool.not_false, if_true]
    exact resolveSubCommands_eq_foldl index rest first hfound
  refine ⟨hres, ?_, ?_⟩
  · intro deepest hd
    rw [hres, foldl_eq_of_descend index rest first deepest hd]
  · intro now store ctx pfx others hsplit hp
    obtain ⟨embed, hembed⟩ : ∃ embed, renderDefaultSpecificHelpEmbed ctx.Router.Prefixes now
        (some (rest.foldl (specResolveStep index) first)) = .ok embed := by
      simp only [renderDefaultSpecificHelpEmbed, hp]
      exact ⟨_, rfl⟩
    refine ⟨embed, hembed, ?_, ?_⟩ <;> simp only [specificHelpCommand, hsplit, hres, hembed]

theorem resolveCommand_eq_foldl_witness :
    (nameIndex (routerOf [cmdAdmin])).GetCmd "admin" = some cmdAdmin ∧ cmdAdmin.Hidden = false ∧
      allFound (nameIndex (routerOf [cmdAdmin])) cmdAdmin ["user", "purge", "ban"] = true ∧
      ["user", "purge", "ban"].foldl (specResolveStep (nameIndex (routerOf [cmdAdmin]))) cmdAdmin =
        cmdBan ∧
      descend (nameIndex (routerOf [cmdAdmin])) cmdAdmin ["user", "ban"] = some cmdBan ∧
      (resolveCommand (nameIndex (routerOf [cmdAdmin])) ("admin" :: ["user", "purge", "ban"]) =
          .ok (some (["user", "purge", "ban"].foldl
            (specResolveStep (nameIndex (routerOf [cmdAdmin]))) cmdAdmin)) ∧
        (∀ deepest,
          descend (nameIndex (routerOf [cmdAdmin])) cmdAdmin ["user", "purge", "ban"] =
            some deepest →
          resolveCommand (nameIndex (routerOf [cmdAdmin])) ("admin" :: ["user", "purge", "ban"]) =
            .ok (some deepest)) ∧
        ∀ (now : String) (store : Store) (ctx : Ctx) (pfx : String) (others : List String),
          splitOnSpace ctx.ArgumentsRaw = "admin" :: ["user", "purge", "ban"] →
          ctx.Router.Prefixes = pfx :: others →
          ∃ embed, renderDefaultSpecificHelpEmbed ctx.Router.Prefixes now
              (some (["user", "purge", "ban"].foldl
                (specResolveStep (nameIndex (routerOf [cmdAdmin]))) cmdAdmin)) = .ok embed ∧
            (specificHelpCommand (nameIndex (routerOf [cmdAdmin])) now store ctx).trace =
              [.channelMessageSendEmbed ctx.ChannelID embed] ∧
            (specificHelpCommand (nameIndex (routerOf [cmdAdmin])) now store ctx).panic = none) :=
  ⟨rfl, rfl, rfl, rfl, rfl,
    resolveCommand_eq_foldl _ "admin" ["user", "purge", "ban"] cmdAdmin rfl rfl rfl⟩

theorem leftArrow_ne_crossMark : leftArrow ≠ crossMark := by decide

theorem rightArrow_ne_leftArrow : rightArrow ≠ leftArrow := by decide

theorem rightArrow_ne_crossMark : rightArrow ≠ crossMark := by decide

theorem wrapInt_eq (x : Int) (h1 : -(maxInt + 1) ≤ x) (h2 : x ≤ maxInt) : wrapInt x = x := by
  unfold wrapInt
  unfold maxInt at h1 h2
  simp only [intBits] at *
  norm_num at *
  omega

theorem Store.get_set (store : Store) (key k : String) (page : Int) :
    (store.Set key page).Get k = if k = key then some page else store.Get k := rfl

theorem navigate_store (router : Router) (now : String) (store : Store)
    (event : MessageReactionAdd) (key : String) (requested : Int) (embed : MessageEmbed)
    (q : Int) (h : renderDefaultGeneralHelpEmbed router now requested = .ok (embed, q)) :
    (navigate router now store event key requested).store = store.Set key q := by
  simp only [navigate, h]

/-- C8: for a reaction of a user other than the bot on a session stored with
page `p ≥ 1` (with `p + 1` still an `int`), over at least one page of
commands, the page stored under the session key afterwards is
`min (max (p-1) 1) pageCount` for the left arrow and `min (p+1) pageCount` for
the right arrow, in both cases the page the renderer returns at `p-1` resp.
`p+1`; a left arrow at page 1 stores 1. -/
theorem reactionAddHandler_navigation_page (router : Router) (botID now : String)
    (store : Store) (event : MessageReactionAdd) (pfx : String) (rest : List String) (p : Int)
    (hp : router.Prefixes = pfx :: rest) (hn : 1 ≤ pageAmount router)
    (hbot : event.UserID ≠ botID)
    (hstored : store.Get (sessionKey event.ChannelID event.MessageID event.UserID) = some p)
    (hpos : 1 ≤ p) (hmax : p < maxInt) :
    (event.EmojiName = leftArrow →
      (reactionAddHandler router botID now store event).store.Get
          (sessionKey event.ChannelID event.MessageID event.UserID) =
        some (min (max (p - 1) 1) (pageAmount router)) ∧
      (∃ embed, renderDefaultGeneralHelpEmbed router now (p - 1) =
        .ok (embed, min (max (p - 1) 1) (pageAmount router))) ∧
      (p = 1 → (reactionAddHandler router botID now store event).store.Get
          (sessionKey event.ChannelID event.MessageID event.UserID) = some 1)) ∧
    (event.EmojiName = rightArrow →
      (reactionAddHandler router botID now store event).store.Get
          (sessionKey event.ChannelID event.MessageID event.UserID) =
        some (min (p + 1) (pageAmount router)) ∧
      ∃ embed, renderDefaultGeneralHelpEmbed router now (p + 1) =
        .ok (embed, min (p + 1) (pageAmount router))) := by
  have hvis : 1 ≤ (visibleCommands router).length := by
    unfold pageAmount at hn
    omega
  have hwl : wrapInt (p - 1) = p - 1 := wrapInt_eq _ (by unfold maxInt at *; omega) (by omega)
  have hwr : wrapInt (p + 1) = p + 1 := wrapInt_eq _ (by unfold maxInt at *; omega) (by omega)
  have hnot : ¬ p ≤ 0 := by omega
  constructor
  · intro hemoji
    obtain ⟨embed, hrender⟩ := render_page_of_visible router now (p - 1) pfx rest hp hvis
    have hq : max 1 (min (p - 1) (pageAmount router : Int)) =
        min (max (p - 1) 1) (pageAmount router) := by omega
    rw [hq] at hrender
    have hstore : (reactionAddHandler router botID now store event).store.Get
        (sessionKey event.ChannelID event.MessageID event.UserID) =
        some (min (max (p - 1) 1) (pageAmount router)) := by
      simp only [reactionAddHandler, hbot, hstored, hnot, hemoji, if_false, if_true, hwl,
        navigate_store _ _ _ _ _ _ _ _ hrender, Store.get_set]
    refine ⟨hstore, ⟨embed, hrender⟩, ?_⟩
    intro h1
    rw [hstore]
    congr 1
    omega
  · intro hemoji
    obtain ⟨embed, hrender⟩ := render_page_of_visible router now (p + 1) pfx rest hp hvis
    have hq : max 1 (min (p + 1) (pageAmount router : Int)) = min (p + 1) (pageAmount router) := by
      omega
    rw [hq] at hrender
    refine ⟨?_, ⟨embed, hrender⟩⟩
    simp only [reactionAddHandler, hbot, hstored, hnot, hemoji, if_false, if_true, hwr,
      rightArrow_ne_leftArrow, rightArrow_ne_crossMark,
      navigate_store _ _ _ _ _ _ _ _ hrender, Store.get_set]

theorem reactionAddHandler_navigation_page_witness :
    (routerOf twelveCommands).Prefixes = "!" :: [] ∧ 1 ≤ pageAmount (routerOf twelveCommands) ∧
      (reactionOf "u" leftArrow).UserID ≠ "bot" ∧
      storeAtTwo.Get (sessionKey (reactionOf "u" leftArrow).ChannelID
        (reactionOf "u" leftArrow).MessageID (reactionOf "u" leftArrow).UserID) = some 2 ∧
      (1 : Int) ≤ 2 ∧ (2 : Int) < maxInt ∧
      (reactionOf "u" leftArrow).EmojiName = leftArrow ∧
      (reactionAddHandler (routerOf twelveCommands) "bot" "" storeAtTwo
          (reactionOf "u" leftArrow)).store.Get (sessionKey "c" "m" "u") =
        some (min (max (2 - 1) 1) (pageAmount (routerOf twelveCommands))) :=
  ⟨rfl, by decide, by decide, by decide, by decide, by decide, rfl,
    ((reactionAddHandler_navigation_page (routerOf twelveCommands) "bot" "" storeAtTwo
      (reactionOf "u" leftArrow) "!" [] 2 rfl (by decide) (by decide) (by decide) (by decide)
      (by decide)).1 rfl).1⟩

theorem render_ok_page_range (router : Router) (now : String) (requested : Int)
    (embed : MessageEmbed) (q : Int) (hn : 1 ≤ (visibleCommands router).length)
    (h : renderDefaultGeneralHelpEmbed router now requested = .ok (embed, q)) :
    1 ≤ q ∧ q ≤ pageAmount router := by
  cases hp : router.Prefixes with
  | nil =>
    simp only [renderDefaultGeneralHelpEmbed, hp] at h
    cases h
  | cons pfx rest =>
    obtain ⟨embed2, h2⟩ := render_page_of_visible router now requested pfx rest hp hn
    rw [h2] at h
    have hq : max 1 (min requested (pageAmount router : Int)) = q := by
      injection h with h
      exact (Prod.mk.inj h).2
    have : 1 ≤ pageAmount router := by unfold pageAmount; omega
    omega

theorem PagesInRange.set (router : Router) (store : Store) (key : String) (page : Int)
    (hinv : PagesInRange router store) (h1 : 1 ≤ page) (h2 : page ≤ pageAmount router) :
    PagesInRange router (store.Set key page) := by
  intro k q hk
  rw [Store.get_set] at hk
  by_cases hkey : k = key
  · rw [if_pos hkey] at hk
    cases hk
    exact ⟨h1, h2⟩
  · rw [if_neg hkey] at hk
    exact hinv k q hk

theorem navigate_pagesInRange (router : Router) (now : String) (store : Store)
    (event : MessageReactionAdd) (key : String) (requested : Int)
    (hn : 1 ≤ (visibleCommands router).length) (hinv : PagesInRange router store) :
    PagesInRange router (navigate router now store event key requested).store := by
  unfold navigate
  cases h : renderDefaultGeneralHelpEmbed router now requested with
  | error e => exact hinv
  | ok r =>
    obtain ⟨embed, q⟩ := r
    have hq := render_ok_page_range router now requested embed q hn h
    exact PagesInRange.set router store key q hinv hq.1 hq.2

theorem reactionAddHandler_pagesInRange (router : Router) (botID now : String) (store : Store)
    (event : MessageReactionAdd) (hn : 1 ≤ (visibleCommands router).length)
    (hinv : PagesInRange router store) :
    PagesInRange router (reactionAddHandler router botID now store event).store := by
  unfold reactionAddHandler
  by_cases hbot : event.UserID = botID
  · simp only [hbot, if_true]
    exact hinv
  · simp only [hbot, if_false]
    cases hget : store.Get (sessionKey event.ChannelID event.MessageID event.UserID) with
    | none => exact hinv
    | some page =>
      have hpage := hinv _ page hget
      simp only []
      split_ifs
      · exact hinv
      · exact navigate_pagesInRange router now store event _ _ hn hinv
      · exact PagesInRange.set router store _ page hinv hpage.1 hpage.2
      · exact navigate_pagesInRange router now store event _ _ hn hinv
      · exact PagesInRange.set router store _ page hinv hpage.1 hpage.2

theorem specificHelpCommand_store (index : CommandIndex) (now : String) (store : Store)
    (ctx : Ctx) : (specificHelpCommand index now store ctx).store = store := by
  simp only [specificHelpCommand]
  cases h1 : resolveCommand index (splitOnSpace ctx.ArgumentsRaw) with
  | error e => rfl
  | ok command =>
    cases h2 : renderDefaultSpecificHelpEmbed ctx.Router.Prefixes now command with
    | error e => simp only [h2]
    | ok embed => simp only [h2]

theorem generalHelpCommand_pagesInRange (index : CommandIndex) (now : String)
    (sent : Option String) (store : Store) (ctx : Ctx)
    (hn : 1 ≤ (visibleCommands ctx.Router).length) (hinv : PagesInRange ctx.Router store) :
    PagesInRange ctx.Router (generalHelpCommand index now sent store ctx).store := by
  unfold generalHelpCommand
  by_cases harg : ctx.ArgumentsAmount > 0
  · simp only [harg, if_true, specificHelpCommand_store]
    exact hinv
  · simp only [harg, if_false]
    cases h1 : renderDefaultGeneralHelpEmbed ctx.Router now 1 with
    | error e => exact hinv
    | ok r =>
      cases sent with
      | none => exact hinv
      | some messageID =>
        refine PagesInRange.set ctx.Router store _ 1 hinv (le_refl 1) ?_
        have : 1 ≤ pageAmount ctx.Router := by unfold pageAmount; omega
        omega

theorem stepStore_pagesInRange (router : Router) (index : CommandIndex) (botID : String)
    (store : Store) (event : HelpEvent) (hn : 1 ≤ (visibleCommands router).length)
    (hinv : PagesInRange router store) :
    PagesInRange router (stepStore router index botID store event) := by
  cases event with
  | invoke channelID authorID amount raw now sent =>
    exact generalHelpCommand_pagesInRange index now sent store
      { Router := router, ChannelID := channelID, AuthorID := authorID,
        ArgumentsAmount := amount, ArgumentsRaw := raw } hn hinv
  | reaction event now => exact reactionAddHandler_pagesInRange router botID now store event hn hinv

theorem runStore_pagesInRange (router : Router) (index : CommandIndex) (botID : String)
    (events : List HelpEvent) (hn : 1 ≤ (visibleCommands router).length) :
    ∀ store, PagesInRange router store →
      PagesInRange router (runStore router index botID store events) := by
  induction events with
  | nil => intro store hinv; exact hinv
  | cons event events ih =>
    intro store hinv
    exact ih _ (stepStore_pagesInRange router index botID store event hn hinv)

/-- C9: for a command list with at least one visible command, every store
reached from the empty store by any sequence of help invocations and reaction
events (any emoji, any user, the bot included) holds, under every key it has,
a page within `[1, pageCount]`. -/
theorem runStore_pages_in_range (router : Router) (index : CommandIndex) (botID : String)
    (events : List HelpEvent) (hn : 1 ≤ (visibleCommands router).length)
    (key : String) (page : Int)
    (hstored : (runStore router index botID Store.empty events).Get key = some page) :
    1 ≤ page ∧ page ≤ pageAmount router := by
  have hempty : PagesInRange router Store.empty := by
    intro k q hk
    cases hk
  exact runStore_pagesInRange router index botID events hn Store.empty hempty key page hstored

set_option maxRecDepth 100000 in
theorem runStore_pages_in_range_witness :
    1 ≤ (visibleCommands (routerOf twelveCommands)).length ∧
      (runStore (routerOf twelveCommands) (nameIndex (routerOf twelveCommands)) "bot"
        Store.empty sampleEvents).Get (sessionKey "c" "m" "u") = some 3 ∧
      (1 : Int) ≤ 3 ∧ (3 : Int) ≤ pageAmount (routerOf twelveCommands) :=
  ⟨by decide, rfl,
    runStore_pages_in_range (routerOf twelveCommands) (nameIndex (routerOf twelveCommands))
      "bot" sampleEvents (by decide) (sessionKey "c" "m" "u") 3 rfl⟩

/-- C10: a reaction added by the bot itself leaves the session store as it is
and makes no call at all, whatever the emoji and the store: the handler returns
before the store is read, so not even a store lookup is logged. -/
theorem reactionAddHandler_self_reaction (router : Router) (botID now : String)
    (store : Store) (event : MessageReactionAdd) (hself : event.UserID = botID) :
    (reactionAddHandler router botID now store event).store = store ∧
      (reactionAddHandler router botID now store event).trace = [] ∧
      (reactionAddHandler router botID now store event).panic = none := by
  simp only [reactionAddHandler, hself, if_true, and_self]

theorem reactionAddHandler_self_reaction_witness :
    (reactionOf "bot" leftArrow).UserID = "bot" ∧
      (reactionAddHandler (routerOf twelveCommands) "bot" "" storeAtTwo
        (reactionOf "bot" leftArrow)).store = storeAtTwo ∧
      (reactionAddHandler (routerOf twelveCommands) "bot" "" storeAtTwo
        (reactionOf "bot" leftArrow)).trace = [] ∧
      (reactionAddHandler (routerOf twelveCommands) "bot" "" storeAtTwo
        (reactionOf "bot" leftArrow)).panic = none :=
  ⟨rfl, reactionAddHandler_self_reaction (routerOf twelveCommands) "bot" "" storeAtTwo
    (reactionOf "bot" leftArrow) rfl⟩

theorem crossMark_ne_leftArrow : crossMark ≠ leftArrow := by decide

theorem Store.set_same (store : Store) (key : String) (page : Int)
    (h : store.Get key = some page) (k : String) : (store.Set key page).Get k = store.Get k := by
  rw [Store.get_set]
  by_cases hk : k = key
  · rw [if_pos hk, hk, h]
  · rw [if_neg hk]

/-- C11: a reaction (any emoji, any user) whose session key is absent from the
store, or stored with a page `≤ 0`, leaves the store as it is, so no entry is
created, and makes no transport call: the handler returns after at most the
store lookup. -/
theorem reactionAddHandler_ignores_non_help (router : Router) (botID now : String)
    (store : Store) (event : MessageReactionAdd)
    (hkey : store.Get (sessionKey event.ChannelID event.MessageID event.UserID) = none ∨
      ∃ page, store.Get (sessionKey event.ChannelID event.MessageID event.UserID) = some page ∧
        page ≤ 0) :
    (reactionAddHandler router botID now store event).store = store ∧
      (reactionAddHandler router botID now store event).trace.filter Effect.isTransport = [] ∧
      (∀ effect ∈ (reactionAddHandler router botID now store event).trace,
        effect = .storeGet (sessionKey event.ChannelID event.MessageID event.UserID)) ∧
      (reactionAddHandler router botID now store event).panic = none := by
  unfold reactionAddHandler
  by_cases hbot : event.UserID = botID
  · simp [hbot]
  · rcases hkey with hnone | ⟨page, hsome, hle⟩
    · simp [hbot, hnone, Effect.isTransport]
    · simp [hbot, hsome, hle, Effect.isTransport]

theorem reactionAddHandler_ignores_non_help_witness :
    (Store.empty.Get (sessionKey (reactionOf "u" leftArrow).ChannelID
        (reactionOf "u" leftArrow).MessageID (reactionOf "u" leftArrow).UserID) = none ∨
      ∃ page, Store.empty.Get (sessionKey (reactionOf "u" leftArrow).ChannelID
        (reactionOf "u" leftArrow).MessageID (reactionOf "u" leftArrow).UserID) = some page ∧
        page ≤ 0) ∧
      (reactionAddHandler (routerOf twelveCommands) "bot" "" Store.empty
        (reactionOf "u" leftArrow)).store = Store.empty ∧
      (reactionAddHandler (routerOf twelveCommands) "bot" "" Store.empty
        (reactionOf "u" leftArrow)).trace.filter Effect.isTransport = [] :=
  ⟨Or.inl rfl,
    (reactionAddHandler_ignores_non_help (routerOf twelveCommands) "bot" "" Store.empty
      (reactionOf "u" leftArrow) (Or.inl rfl)).1,
    (reactionAddHandler_ignores_non_help (routerOf twelveCommands) "bot" "" Store.empty
      (reactionOf "u" leftArrow) (Or.inl rfl)).2.1⟩

/-- C12, as stated, fails: on a cross-mark reaction of user `u` on a session
stored at page 2 the handler does write the session store: after the `break`
of line 54 the write of line 67 is executed and logged. -/
theorem reactionAddHandler_delete_writes_store :
    Effect.storeSet (sessionKey "c" "m" "u") 2 ∈
      (reactionAddHandler (routerOf twelveCommands) "bot" "" storeAtTwo
        (reactionOf "u" crossMark)).trace := by
  decide

/-- C12, amended: a cross-mark reaction of a user other than the bot on a
session stored with page `p ≥ 1` makes exactly one transport call, the
deletion of the message, with no render, no edit and no reaction removal; it
then writes the store once, storing the same page `p` again under the session
key, so that every key holds the page it held before. -/
theorem reactionAddHandler_delete (router : Router) (botID now : String) (store : Store)
    (event : MessageReactionAdd) (p : Int) (hbot : event.UserID ≠ botID)
    (hstored : store.Get (sessionKey event.ChannelID event.MessageID event.UserID) = some p)
    (hpos : 1 ≤ p) (hemoji : event.EmojiName = crossMark) :
    (reactionAddHandler router botID now store event).trace =
        [.storeGet (sessionKey event.ChannelID event.MessageID event.UserID),
          .channelMessageDelete event.ChannelID event.MessageID,
          .storeSet (sessionKey event.ChannelID event.MessageID event.UserID) p] ∧
      (reactionAddHandler router botID now store event).trace.filter Effect.isTransport =
        [.channelMessageDelete event.ChannelID event.MessageID] ∧
      (∀ key, (reactionAddHandler router botID now store event).store.Get key = store.Get key) ∧
      (reactionAddHandler router botID now store event).panic = none := by
  have hnot : ¬ p ≤ 0 := by omega
  have hout : reactionAddHandler router botID now store event =
      { store := store.Set (sessionKey event.ChannelID event.MessageID event.UserID) p
        trace := [.storeGet (sessionKey event.ChannelID event.MessageID event.UserID),
          .channelMessageDelete event.ChannelID event.MessageID,
          .storeSet (sessionKey event.ChannelID event.MessageID event.UserID) p]
        panic := none } := by
    simp only [reactionAddHandler, hbot, hstored, hnot, hemoji, crossMark_ne_leftArrow,
      if_false, if_true]
  rw [hout]
  refine ⟨rfl, rfl, ?_, rfl⟩
  intro key
  exact Store.set_same store _ p hstored key

theorem reactionAddHandler_delete_witness :
    (reactionOf "u" crossMark).UserID ≠ "bot" ∧
      storeAtTwo.Get (sessionKey (reactionOf "u" crossMark).ChannelID
        (reactionOf "u" crossMark).MessageID (reactionOf "u" crossMark).UserID) = some 2 ∧
      (1 : Int) ≤ 2 ∧ (reactionOf "u" crossMark).EmojiName = crossMark ∧
      (reactionAddHandler (routerOf twelveCommands) "bot" "" storeAtTwo
        (reactionOf "u" crossMark)).trace.filter Effect.isTransport =
        [.channelMessageDelete "c" "m"] :=
  ⟨by decide, by decide, by decide, rfl,
    (reactionAddHandler_delete (routerOf twelveCommands) "bot" "" storeAtTwo
      (reactionOf "u" crossMark) 2 (by decide) (by decide) (by decide) rfl).2.1⟩

/-- C13: a reaction with an emoji other than the left arrow, the right arrow
and the cross mark, by a user other than the bot on a session stored with page
`p ≥ 1`, leaves under every key the page stored before and makes no transport
call; the only calls are the store lookup and the write of the same page. -/
theorem reactionAddHandler_unknown_emoji (router : Router) (botID now : String)
    (store : Store) (event : MessageReactionAdd) (p : Int) (hbot : event.UserID ≠ botID)
    (hstored : store.Get (sessionKey event.ChannelID event.MessageID event.UserID) = some p)
    (hpos : 1 ≤ p) (hleft : event.EmojiName ≠ leftArrow) (hcross : event.EmojiName ≠ crossMark)
    (hright : event.EmojiName ≠ rightArrow) :
    (∀ key, (reactionAddHandler router botID now store event).store.Get key = store.Get key) ∧
      (reactionAddHandler router botID now store event).trace.filter Effect.isTransport = [] ∧
      (reactionAddHandler router botID now store event).trace =
        [.storeGet (sessionKey event.ChannelID event.MessageID event.UserID),
          .storeSet (sessionKey event.ChannelID event.MessageID event.UserID) p] ∧
      (reactionAddHandler router botID now store event).panic = none := by
  have hnot : ¬ p ≤ 0 := by omega
  have hout : reactionAddHandler router botID now store event =
      { store := store.Set (sessionKey event.ChannelID event.MessageID event.UserID) p
        trace := [.storeGet (sessionKey event.ChannelID event.MessageID event.UserID),
          .storeSet (sessionKey event.ChannelID event.MessageID event.UserID) p]
        panic := none } := by
    simp only [reactionAddHandler, hbot, hstored, hnot, hleft, hcross, hright, if_false]
  rw [hout]
  refine ⟨?_, rfl, rfl, rfl⟩
  intro key
  exact Store.set_same store _ p hstored key

theorem reactionAddHandler_unknown_emoji_witness :
    (reactionOf "u" "x").UserID ≠ "bot" ∧
      storeAtTwo.Get (sessionKey (reactionOf "u" "x").ChannelID
        (reactionOf "u" "x").MessageID (reactionOf "u" "x").UserID) = some 2 ∧
      (1 : Int) ≤ 2 ∧ (reactionOf "u" "x").EmojiName ≠ leftArrow ∧
      (reactionOf "u" "x").EmojiName ≠ crossMark ∧ (reactionOf "u" "x").EmojiName ≠ rightArrow ∧
      ((∀ key, (reactionAddHandler (routerOf twelveCommands) "bot" "" storeAtTwo
          (reactionOf "u" "x")).store.Get key = storeAtTwo.Get key) ∧
        (reactionAddHandler (routerOf twelveCommands) "bot" "" storeAtTwo
          (reactionOf "u" "x")).trace.filter Effect.isTransport = [] ∧
        (reactionAddHandler (routerOf twelveCommands) "bot" "" storeAtTwo
          (reactionOf "u" "x")).trace =
          [.storeGet (sessionKey (reactionOf "u" "x").ChannelID (reactionOf "u" "x").MessageID
              (reactionOf "u" "x").UserID),
            .storeSet (sessionKey (reactionOf "u" "x").ChannelID (reactionOf "u" "x").MessageID
              (reactionOf "u" "x").UserID) 2] ∧
        (reactionAddHandler (routerOf twelveCommands) "bot" "" storeAtTwo
          (reactionOf "u" "x")).panic = none) :=
  ⟨by decide, by decide, by decide, by decide, by decide, by decide,
    reactionAddHandler_unknown_emoji (routerOf twelveCommands) "bot" "" storeAtTwo
      (reactionOf "u" "x") 2 (by decide) (by decide) (by decide) (by decide) (by decide)
      (by decide)⟩

theorem navigate_trace (router : Router) (now : String) (store : Store)
    (event : MessageReactionAdd) (key : String) (requested : Int) (embed : MessageEmbed)
    (q : Int) (h : renderDefaultGeneralHelpEmbed router now requested = .ok (embed, q)) :
    (navigate router now store event key requested).trace =
        [.storeGet key, .renderList requested,
          .channelMessageEditEmbed event.ChannelID event.MessageID embed,
          .messageReactionRemove event.ChannelID event.MessageID event.EmojiName event.UserID,
          .storeSet key q] ∧
      (navigate router now store event key requested).panic = none := by
  simp only [navigate, h, and_self]

/-- C18: for a left-arrow or right-arrow reaction of a user other than the bot
on a session stored with page `p ≥ 1` (with `p + 1` still an `int`), over at
least one page of commands, the calls of the handler after the store lookup
are exactly, in this order: render the list at `p-1` resp. `p+1`, edit the
message with the rendered embed, remove the reaction of that user, write the
returned page to the store. The results of the edit and of the removal are
discarded by the code, so the write does not depend on them; a left arrow at
page 1 still edits, removes the reaction and writes 1. -/
theorem reactionAddHandler_navigation_trace (router : Router) (botID now : String)
    (store : Store) (event : MessageReactionAdd) (pfx : String) (rest : List String) (p : Int)
    (hp : router.Prefixes = pfx :: rest) (hn : 1 ≤ pageAmount router)
    (hbot : event.UserID ≠ botID)
    (hstored : store.Get (sessionKey event.ChannelID event.MessageID event.UserID) = some p)
    (hpos : 1 ≤ p) (hmax : p < maxInt) :
    (event.EmojiName = leftArrow →
      ∃ embed q, renderDefaultGeneralHelpEmbed router now (p - 1) = .ok (embed, q) ∧
        (reactionAddHandler router botID now store event).trace =
          [.storeGet (sessionKey event.ChannelID event.MessageID event.UserID),
            .renderList (p - 1),
            .channelMessageEditEmbed event.ChannelID event.MessageID embed,
            .messageReactionRemove event.ChannelID event.MessageID leftArrow event.UserID,
            .storeSet (sessionKey event.ChannelID event.MessageID event.UserID) q] ∧
        (reactionAddHandler router botID now store event).panic = none ∧
        (p = 1 → q = 1)) ∧
    (event.EmojiName = rightArrow →
      ∃ embed q, renderDefaultGeneralHelpEmbed router now (p + 1) = .ok (embed, q) ∧
        (reactionAddHandler router botID now store event).trace =
          [.storeGet (sessionKey event.ChannelID event.MessageID event.UserID),
            .renderList (p + 1),
            .channelMessageEditEmbed event.ChannelID event.MessageID embed,
            .messageReactionRemove event.ChannelID event.MessageID rightArrow event.UserID,
            .storeSet (sessionKey event.ChannelID event.MessageID event.UserID) q] ∧
        (reactionAddHandler router botID now store event).panic = none) := by
  have hvis : 1 ≤ (visibleCommands router).length := by
    unfold pageAmount at hn
    omega
  have hwl : wrapInt (p - 1) = p - 1 := wrapInt_eq _ (by unfold maxInt at *; omega) (by omega)
  have hwr : wrapInt (p + 1) = p + 1 := wrapInt_eq _ (by unfold maxInt at *; omega) (by omega)
  have hnot : ¬ p ≤ 0 := by omega
  constructor
  · intro hemoji
    obtain ⟨embed, hrender⟩ := render_page_of_visible router now (p - 1) pfx rest hp hvis
    have hout : reactionAddHandler router botID now store event =
        navigate router now store event
          (sessionKey event.ChannelID event.MessageID event.UserID) (p - 1) := by
      simp only [reactionAddHandler, hbot, hstored, hnot, hemoji, if_false, if_true, hwl]
    have htrace := navigate_trace router now store event
      (sessionKey event.ChannelID event.MessageID event.UserID) (p - 1) embed _ hrender
    rw [hemoji] at htrace
    refine ⟨embed, _, hrender, ?_, ?_, ?_⟩
    · rw [hout]; exact htrace.1
    · rw [hout]; exact htrace.2
    · intro h1
      omega
  · intro hemoji
    obtain ⟨embed, hrender⟩ := render_page_of_visible router now (p + 1) pfx rest hp hvis
    have hout : reactionAddHandler router botID now store event =
        navigate router now store event
          (sessionKey event.ChannelID event.MessageID event.UserID) (p + 1) := by
      simp only [reactionAddHandler, hbot, hstored, hnot, hemoji, if_false, if_true, hwr,
        rightArrow_ne_leftArrow, rightArrow_ne_crossMark]
    have htrace := navigate_trace router now store event
      (sessionKey event.ChannelID event.MessageID event.UserID) (p + 1) embed _ hrender
    rw [hemoji] at htrace
    refine ⟨embed, _, hrender, ?_, ?_⟩
    · rw [hout]; exact htrace.1
    · rw [hout]; exact htrace.2

theorem reactionAddHandler_navigation_trace_witness :
    (routerOf twelveCommands).Prefixes = "!" :: [] ∧ 1 ≤ pageAmount (routerOf twelveCommands) ∧
      (reactionOf "u" leftArrow).UserID ≠ "bot" ∧
      (Store.empty.Set (sessionKey "c" "m" "u") 1).Get
        (sessionKey (reactionOf "u" leftArrow).ChannelID (reactionOf "u" leftArrow).MessageID
          (reactionOf "u" leftArrow).UserID) = some 1 ∧
      (1 : Int) ≤ 1 ∧ (1 : Int) < maxInt ∧ (reactionOf "u" leftArrow).EmojiName = leftArrow ∧
      ∃ embed q, renderDefaultGeneralHelpEmbed (routerOf twelveCommands) "" (1 - 1) =
          .ok (embed, q) ∧
        (reactionAddHandler (routerOf twelveCommands) "bot" ""
            (Store.empty.Set (sessionKey "c" "m" "u") 1) (reactionOf "u" leftArrow)).trace =
          [.storeGet (sessionKey (reactionOf "u" leftArrow).ChannelID
              (reactionOf "u" leftArrow).MessageID (reactionOf "u" leftArrow).UserID),
            .renderList (1 - 1),
            .channelMessageEditEmbed (reactionOf "u" leftArrow).ChannelID
              (reactionOf "u" leftArrow).MessageID embed,
            .messageReactionRemove (reactionOf "u" leftArrow).ChannelID
              (reactionOf "u" leftArrow).MessageID leftArrow (reactionOf "u" leftArrow).UserID,
            .storeSet (sessionKey (reactionOf "u" leftArrow).ChannelID
              (reactionOf "u" leftArrow).MessageID (reactionOf "u" leftArrow).UserID) q] ∧
        (reactionAddHandler (routerOf twelveCommands) "bot" ""
            (Store.empty.Set (sessionKey "c" "m" "u") 1) (reactionOf "u" leftArrow)).panic =
          none ∧
        ((1 : Int) = 1 → q = 1) :=
  ⟨rfl, by decide, by decide, by decide, by decide, by decide, rfl,
    (reactionAddHandler_navigation_trace (routerOf twelveCommands) "bot" ""
      (Store.empty.Set (sessionKey "c" "m" "u") 1) (reactionOf "u" leftArrow) "!" [] 1 rfl
      (by decide) (by decide) (by decide) (by decide) (by decide)).1 rfl⟩

/-- C16: a help invocation without arguments in channel `c` by author `u`, on a
router with a prefix and at least one visible command, whose sent message gets
the ID `m`, renders page 1, sends that embed to `c`, adds the reactions left
arrow, cross mark, right arrow to the message in this order, and then writes
page 1 under the key `c + ":" + m + ":" + u`: the store afterwards is the
previous store with this one entry set, every other key unchanged. -/
theorem generalHelpCommand_creates_session (index : CommandIndex) (now : String)
    (messageID : String) (store : Store) (ctx : Ctx) (pfx : String) (rest : List String)
    (hargs : ctx.ArgumentsAmount = 0) (hp : ctx.Router.Prefixes = pfx :: rest)
    (hn : 1 ≤ (visibleCommands ctx.Router).length) :
    ∃ embed, renderDefaultGeneralHelpEmbed ctx.Router now 1 = .ok (embed, 1) ∧
      (generalHelpCommand index now (some messageID) store ctx).store =
        store.Set (ctx.ChannelID ++ ":" ++ messageID ++ ":" ++ ctx.AuthorID) 1 ∧
      (generalHelpCommand index now (some messageID) store ctx).store.Get
        (ctx.ChannelID ++ ":" ++ messageID ++ ":" ++ ctx.AuthorID) = some 1 ∧
      (∀ key, key ≠ ctx.ChannelID ++ ":" ++ messageID ++ ":" ++ ctx.AuthorID →
        (generalHelpCommand index now (some messageID) store ctx).store.Get key =
          store.Get key) ∧
      (generalHelpCommand index now (some messageID) store ctx).trace =
        [.renderList 1, .channelMessageSendEmbed ctx.ChannelID embed,
          .messageReactionAdd ctx.ChannelID messageID "⬅️",
          .messageReactionAdd ctx.ChannelID messageID "❌",
          .messageReactionAdd ctx.ChannelID messageID "➡️",
          .storeSet (ctx.ChannelID ++ ":" ++ messageID ++ ":" ++ ctx.AuthorID) 1] ∧
      (generalHelpCommand index now (some messageID) store ctx).panic = none := by
  obtain ⟨embed, hrender⟩ := render_page_of_visible ctx.Router now 1 pfx rest hp hn
  have hq : max 1 (min (1 : Int) (pageAmount ctx.Router)) = 1 := by omega
  rw [hq] at hrender
  have hnoargs : ¬ ctx.ArgumentsAmount > 0 := by omega
  have hout : generalHelpCommand index now (some messageID) store ctx =
      { store := store.Set (sessionKey ctx.ChannelID messageID ctx.AuthorID) 1
        trace := [.renderList 1, .channelMessageSendEmbed ctx.ChannelID embed,
          .messageReactionAdd ctx.ChannelID messageID leftArrow,
          .messageReactionAdd ctx.ChannelID messageID crossMark,
          .messageReactionAdd ctx.ChannelID messageID rightArrow,
          .storeSet (sessionKey ctx.ChannelID messageID ctx.AuthorID) 1]
        panic := none } := by
    simp only [generalHelpCommand, hnoargs, if_false, hrender]
  rw [hout]
  refine ⟨embed, hrender, rfl, ?_, ?_, rfl, rfl⟩
  · show (store.Set (sessionKey ctx.ChannelID messageID ctx.AuthorID) 1).Get
      (sessionKey ctx.ChannelID messageID ctx.AuthorID) = some 1
    rw [Store.get_set, if_pos rfl]
  · intro key hkey
    show (store.Set (sessionKey ctx.ChannelID messageID ctx.AuthorID) 1).Get key = store.Get key
    rw [Store.get_set, if_neg]
    exact hkey

theorem generalHelpCommand_creates_session_witness :
    (ctxOf (routerOf twelveCommands) 0 "").ArgumentsAmount = 0 ∧
      (ctxOf (routerOf twelveCommands) 0 "").Router.Prefixes = "!" :: [] ∧
      1 ≤ (visibleCommands (ctxOf (routerOf twelveCommands) 0 "").Router).length ∧
      ∃ embed, renderDefaultGeneralHelpEmbed (ctxOf (routerOf twelveCommands) 0 "").Router "" 1 =
          .ok (embed, 1) ∧
        (generalHelpCommand (nameIndex (routerOf twelveCommands)) "" (some "m") Store.empty
            (ctxOf (routerOf twelveCommands) 0 "")).store.Get "c:m:u" = some 1 ∧
        (generalHelpCommand (nameIndex (routerOf twelveCommands)) "" (some "m") Store.empty
            (ctxOf (routerOf twelveCommands) 0 "")).trace =
          [.renderList 1, .channelMessageSendEmbed "c" embed,
            .messageReactionAdd "c" "m" "⬅️",
            .messageReactionAdd "c" "m" "❌",
            .messageReactionAdd "c" "m" "➡️",
            .storeSet "c:m:u" 1] :=
  match generalHelpCommand_creates_session (nameIndex (routerOf twelveCommands)) "" "m"
    Store.empty (ctxOf (routerOf twelveCommands) 0 "") "!" [] rfl rfl (by decide) with
  | ⟨embed, h1, _, h3, _, h5, _⟩ => ⟨rfl, rfl, by decide, embed, h1, h3, h5⟩

theorem mem_ite_singleton {α : Type} (c : Prop) [Decidable c] (a x : α) :
    a ∈ (if c then [x] else []) ↔ c ∧ a = x := by
  split_ifs with h <;> simp [h]

theorem string_length_pos (s : String) : s.length > 0 ↔ s ≠ "" := by
  rw [String.length, ne_eq, String.ext_iff]
  cases s.data <;> simp

theorem mem_detailOptionalFields (pfx : String) (command : Command) (f : MessageEmbedField) :
    f ∈ detailOptionalFields pfx command ↔
      (command.SubCommands.length > 0 ∧ f =
        { Name := "Sub Commands"
          Value := "`" ++ "`, `".intercalate
            ((command.SubCommands.filter (fun subCommand => !subCommand.Hidden)).map
              Command.Name) ++ "`"
          Inline := false }) ∨
      (command.Aliases.length > 0 ∧ f =
        { Name := "Aliases"
          Value := "`" ++ "`, `".intercalate command.Aliases ++ "`"
          Inline := false }) ∨
      (command.Description.length > 0 ∧ f =
        { Name := "Description", Value := "```" ++ command.Description ++ "```",
          Inline := false }) ∨
      (command.Usage.length > 0 ∧ f =
        { Name := "Usage", Value := "```" ++ pfx ++ command.Usage ++ "```", Inline := false }) ∨
      (command.Example.length > 0 ∧ f =
        { Name := "Example", Value := "```" ++ pfx ++ command.Example ++ "```",
          Inline := false }) := by
  unfold detailOptionalFields
  simp only [List.mem_append, mem_ite_singleton, or_assoc]

theorem renderDefaultSpecificHelpEmbed_some (pfx : String) (rest : List String) (now : String)
    (command : Command) :
    renderDefaultSpecificHelpEmbed (pfx :: rest) now (some command) =
      .ok { EmbedType := "rich"
            Title := "Command Information"
            Description := "Displaying the information for the `" ++ command.Name ++ "` command."
            Timestamp := now
            Color := 0xffff00
            Fields := { Name := "Name", Value := "`" ++ command.Name ++ "`", Inline := false } ::
              detailOptionalFields pfx command } := rfl

/-- C14, at the failing input: the detail embed has a field named
`Sub Commands` exactly when the command has at least one subcommand, hidden or
not (the test of line 225 is on `len(command.SubCommands)`); its value lists
the names of the non-hidden subcommands in order. So a command whose
subcommands are all hidden gets a `Sub Commands` field with the empty list as
value, although it has no non-hidden subcommand. -/
theorem renderDefaultSpecificHelpEmbed_subCommands_field (pfxs : List String) (now : String)
    (command : Command) (pfx : String) (rest : List String) (hp : pfxs = pfx :: rest) :
    ∃ embed, renderDefaultSpecificHelpEmbed pfxs now (some command) = .ok embed ∧
      ((∃ f ∈ embed.Fields, f.Name = "Sub Commands") ↔ command.SubCommands ≠ []) ∧
      (∀ f ∈ embed.Fields, f.Name = "Sub Commands" →
        f.Value = "`" ++ "`, `".intercalate
          ((command.SubCommands.filter (fun sub => !sub.Hidden)).map Command.Name) ++ "`") ∧
      (command.SubCommands ≠ [] → (∀ sub ∈ command.SubCommands, sub.Hidden = true) →
        command.SubCommands.filter (fun sub => !sub.Hidden) = [] ∧
        { Name := "Sub Commands", Value := "``", Inline := false } ∈ embed.Fields) := by
  subst hp
  refine ⟨_, renderDefaultSpecificHelpEmbed_some pfx rest now command, ?_, ?_, ?_⟩
  · constructor
    · rintro ⟨f, hf, hname⟩
      rw [List.mem_cons, mem_detailOptionalFields] at hf
      rcases hf with h | ⟨h, _⟩ | ⟨_, h⟩ | ⟨_, h⟩ | ⟨_, h⟩ | ⟨_, h⟩
      · rw [h] at hname; simp at hname
      · exact List.ne_nil_of_length_pos h
      · rw [h] at hname; simp at hname
      · rw [h] at hname; simp at hname
      · rw [h] at hname; simp at hname
      · rw [h] at hname; simp at hname
    · intro hne
      refine ⟨_, List.mem_cons_of_mem _ ((mem_detailOptionalFields pfx command _).mpr
        (Or.inl ⟨List.length_pos.mpr hne, rfl⟩)), rfl⟩
  · intro f hf hname
    rw [List.mem_cons, mem_detailOptionalFields] at hf
    rcases hf with h | ⟨_, h⟩ | ⟨_, h⟩ | ⟨_, h⟩ | ⟨_, h⟩ | ⟨_, h⟩
    · rw [h] at hname; simp at hname
    · rw [h]
    · rw [h] at hname; simp at hname
    · rw [h] at hname; simp at hname
    · rw [h] at hname; simp at hname
    · rw [h] at hname; simp at hname
  · intro hne hall
    have hfilter : command.SubCommands.filter (fun sub => !sub.Hidden) = [] := by
      rw [List.filter_eq_nil_iff]
      intro sub hsub
      simp [hall sub hsub]
    refine ⟨hfilter, List.mem_cons_of_mem _ ((mem_detailOptionalFields pfx command _).mpr
      (Or.inl ⟨List.length_pos.mpr hne, ?_⟩))⟩
    rw [hfilter]
    rfl

theorem renderDefaultSpecificHelpEmbed_subCommands_field_witness :
    (routerOf [cmdGroup]).Prefixes = "!" :: [] ∧ cmdGroup.SubCommands ≠ [] ∧
      (∀ sub ∈ cmdGroup.SubCommands, sub.Hidden = true) ∧
      ∃ embed, renderDefaultSpecificHelpEmbed (routerOf [cmdGroup]).Prefixes "" (some cmdGroup) =
          .ok embed ∧
        cmdGroup.SubCommands.filter (fun sub => !sub.Hidden) = [] ∧
        { Name := "Sub Commands", Value := "``", Inline := false } ∈ embed.Fields :=
  match renderDefaultSpecificHelpEmbed_subCommands_field (routerOf [cmdGroup]).Prefixes ""
    cmdGroup "!" [] rfl with
  | ⟨embed, h1, _, _, h4⟩ =>
    ⟨rfl, by simp [cmdGroup, Command.SubCommands],
      by simp [cmdGroup, Command.SubCommands, plainCommand, Command.Hidden],
      embed, h1,
      h4 (by simp [cmdGroup, Command.SubCommands])
        (by simp [cmdGroup, Command.SubCommands, plainCommand, Command.Hidden])⟩

theorem detailOptionalFields_names_sublist (pfx : String) (command : Command) :
    ((detailOptionalFields pfx command).map MessageEmbedField.Name).Sublist
      ["Sub Commands", "Aliases", "Description", "Usage", "Example"] := by
  unfold detailOptionalFields
  by_cases h1 : command.SubCommands.length > 0 <;>
  by_cases h2 : command.Aliases.length > 0 <;>
  by_cases h3 : command.Description.length > 0 <;>
  by_cases h4 : command.Usage.length > 0 <;>
  by_cases h5 : command.Example.length > 0 <;>
  simp only [h1, h2, h3, h4, h5, if_true, if_false, List.map_append, List.map_cons,
    List.map_nil, List.nil_append, List.append_nil, List.cons_append] <;>
  decide

theorem mem_detail_names (pfx : String) (command : Command) (name : String) :
    name ∈ (detailOptionalFields pfx command).map MessageEmbedField.Name ↔
      (command.SubCommands.length > 0 ∧ name = "Sub Commands") ∨
      (command.Aliases.length > 0 ∧ name = "Aliases") ∨
      (command.Description.length > 0 ∧ name = "Description") ∨
      (command.Usage.length > 0 ∧ name = "Usage") ∨
      (command.Example.length > 0 ∧ name = "Example") := by
  rw [List.mem_map]
  constructor
  · rintro ⟨f, hf, rfl⟩
    rw [mem_detailOptionalFields] at hf
    rcases hf with ⟨h, hf⟩ | ⟨h, hf⟩ | ⟨h, hf⟩ | ⟨h, hf⟩ | ⟨h, hf⟩ <;> rw [hf] <;> simp [h]
  · intro h
    rcases h with ⟨h, rfl⟩ | ⟨h, rfl⟩ | ⟨h, rfl⟩ | ⟨h, rfl⟩ | ⟨h, rfl⟩
    · exact ⟨_, (mem_detailOptionalFields pfx command _).mpr (Or.inl ⟨h, rfl⟩), rfl⟩
    · exact ⟨_, (mem_detailOptionalFields pfx command _).mpr (Or.inr (Or.inl ⟨h, rfl⟩)), rfl⟩
    · exact ⟨_, (mem_detailOptionalFields pfx command _).mpr
        (Or.inr (Or.inr (Or.inl ⟨h, rfl⟩))), rfl⟩
    · exact ⟨_, (mem_detailOptionalFields pfx command _).mpr
        (Or.inr (Or.inr (Or.inr (Or.inl ⟨h, rfl⟩)))), rfl⟩
    · exact ⟨_, (mem_detailOptionalFields pfx command _).mpr
        (Or.inr (Or.inr (Or.inr (Or.inr ⟨h, rfl⟩)))), rfl⟩

/-- C15: for a resolved command the field names of the detail embed are a
subsequence of Name, Sub Commands, Aliases, Description, Usage, Example in
this order, beginning with the Name field; Aliases, Description, Usage and
Example are present exactly when the command's aliases, description, usage
resp. example are non-empty, each on its own attribute only; the Usage and
Example values are the first router prefix followed by the usage resp. the
example, between code fences. -/
theorem renderDefaultSpecificHelpEmbed_layout (pfxs : List String) (now : String)
    (command : Command) (pfx : String) (rest : List String) (hp : pfxs = pfx :: rest) :
    ∃ embed, renderDefaultSpecificHelpEmbed pfxs now (some command) = .ok embed ∧
      (embed.Fields.map MessageEmbedField.Name).Sublist detailSectionNames ∧
      embed.Fields.head? =
        some { Name := "Name", Value := "`" ++ command.Name ++ "`", Inline := false } ∧
      ("Aliases" ∈ embed.Fields.map MessageEmbedField.Name ↔ command.Aliases ≠ []) ∧
      ("Description" ∈ embed.Fields.map MessageEmbedField.Name ↔ command.Description ≠ "") ∧
      ("Usage" ∈ embed.Fields.map MessageEmbedField.Name ↔ command.Usage ≠ "") ∧
      ("Example" ∈ embed.Fields.map MessageEmbedField.Name ↔ command.Example ≠ "") ∧
      (∀ f ∈ embed.Fields, f.Name = "Usage" →
        f.Value = "```" ++ pfx ++ command.Usage ++ "```") ∧
      (∀ f ∈ embed.Fields, f.Name = "Example" →
        f.Value = "```" ++ pfx ++ command.Example ++ "```") := by
  subst hp
  refine ⟨_, renderDefaultSpecificHelpEmbed_some pfx rest now command, ?_, rfl, ?_, ?_, ?_, ?_,
    ?_, ?_⟩
  · exact (detailOptionalFields_names_sublist pfx command).cons_cons "Name"
  · rw [List.map_cons, List.mem_cons, mem_detail_names, ← List.length_pos]
    simp
  · rw [List.map_cons, List.mem_cons, mem_detail_names, ← string_length_pos]
    simp
  · rw [List.map_cons, List.mem_cons, mem_detail_names, ← string_length_pos]
    simp
  · rw [List.map_cons, List.mem_cons, mem_detail_names, ← string_length_pos]
    simp
  · intro f hf hname
    rw [List.mem_cons, mem_detailOptionalFields] at hf
    rcases hf with h | ⟨_, h⟩ | ⟨_, h⟩ | ⟨_, h⟩ | ⟨_, h⟩ | ⟨_, h⟩
    · rw [h] at hname; simp at hname
    · rw [h] at hname; simp at hname
    · rw [h] at hname; simp at hname
    · rw [h] at hname; simp at hname
    · rw [h]
    · rw [h] at hname; simp at hname
  · intro f hf hname
    rw [List.mem_cons, mem_detailOptionalFields] at hf
    rcases hf with h | ⟨_, h⟩ | ⟨_, h⟩ | ⟨_, h⟩ | ⟨_, h⟩ | ⟨_, h⟩
    · rw [h] at hname; simp at hname
    · rw [h] at hname; simp at hname
    · rw [h] at hname; simp at hname
    · rw [h] at hname; simp at hname
    · rw [h] at hname; simp at hname
    · rw [h]

theorem renderDefaultSpecificHelpEmbed_layout_witness :
    (routerOf [cmdFull]).Prefixes = "!" :: [] ∧
      ∃ embed, renderDefaultSpecificHelpEmbed (routerOf [cmdFull]).Prefixes "" (some cmdFull) =
          .ok embed ∧
        (embed.Fields.map MessageEmbedField.Name).Sublist detailSectionNames ∧
        ("Usage" ∈ embed.Fields.map MessageEmbedField.Name ↔ cmdFull.Usage ≠ "") ∧
        (∀ f ∈ embed.Fields, f.Name = "Usage" →
          f.Value = "```" ++ "!" ++ cmdFull.Usage ++ "```") :=
  match renderDefaultSpecificHelpEmbed_layout (routerOf [cmdFull]).Prefixes "" cmdFull "!" []
    rfl with
  | ⟨embed, h1, h2, _, _, _, h6, _, h8, _⟩ => ⟨rfl, embed, h1, h2, h6, h8⟩

/-- C17, as stated, fails: two different triples whose IDs contain a colon are
given the same session key. -/
theorem sessionKey_not_injective :
    ¬ ∀ channelID messageID userID channelID2 messageID2 userID2 : String,
      channelID ++ ":" ++ messageID ++ ":" ++ userID =
        channelID2 ++ ":" ++ messageID2 ++ ":" ++ userID2 →
      channelID = channelID2 ∧ messageID = messageID2 ∧ userID = userID2 := by
  intro h
  have h1 := (h "a:b" "c" "d" "a" "b:c" "d" (by decide)).1
  exact absurd h1 (by decide)

theorem append_colon_inj (a : List Char) :
    ∀ (b r t : List Char), ':' ∉ a → ':' ∉ b → a ++ ':' :: r = b ++ ':' :: t → a = b ∧ r = t := by
  induction a with
  | nil =>
    intro b r t _ hb h
    cases b with
    | nil => exact ⟨rfl, by simpa using h⟩
    | cons y b =>
      simp only [List.nil_append, List.cons_append, List.cons.injEq] at h
      exact absurd (h.1 ▸ List.mem_cons_self _ _) hb
  | cons x a ih =>
    intro b r t ha hb h
    cases b with
    | nil =>
      simp only [List.nil_append, List.cons_append, List.cons.injEq] at h
      exact absurd (h.1 ▸ List.mem_cons_self _ _) ha
    | cons y b =>
      simp only [List.cons_append, List.cons.injEq] at h
      obtain ⟨hab, hrt⟩ := ih b r t (fun hm => ha (List.mem_cons_of_mem _ hm))
        (fun hm => hb (List.mem_cons_of_mem _ hm)) h.2
      exact ⟨by rw [h.1, hab], hrt⟩

/-- C17, amended: for triples whose channel and message IDs contain no colon
(as the decimal IDs assigned by the platform), the keys
`channelID + ":" + messageID + ":" + userID` built by the code are equal only
if the triples are equal component by component. -/
theorem sessionKey_injective (channelID messageID userID channelID2 messageID2 userID2 : String)
    (hc : ':' ∉ channelID.data) (hm : ':' ∉ messageID.data)
    (hc2 : ':' ∉ channelID2.data) (hm2 : ':' ∉ messageID2.data)
    (h : sessionKey channelID messageID userID = sessionKey channelID2 messageID2 userID2) :
    channelID = channelID2 ∧ messageID = messageID2 ∧ userID = userID2 := by
  have hdata := congrArg String.data h
  simp only [sessionKey, String.data_append, List.append_assoc] at hdata
  simp only [List.singleton_append] at hdata
  obtain ⟨h1, hrest⟩ := append_colon_inj _ _ _ _ hc hc2 hdata
  obtain ⟨h2, h3⟩ := append_colon_inj _ _ _ _ hm hm2 hrest
  exact ⟨String.ext h1, String.ext h2, String.ext h3⟩

theorem sessionKey_injective_witness :
    ':' ∉ "100".data ∧ ':' ∉ "200".data ∧
      sessionKey "100" "200" "3:00" = sessionKey "100" "200" "3:00" ∧
      ("100" = "100" ∧ "200" = "200" ∧ "3:00" = "3:00") :=
  ⟨by decide, by decide, rfl,
    sessionKey_injective "100" "200" "3:00" "100" "200" "3:00" (by decide) (by decide)
      (by decide) (by decide) rfl⟩

theorem pageFields_eq_window (router : Router) (now : String) (pfx : String)
    (rest : List String) (hp : router.Prefixes = pfx :: rest)
    (hn : 1 ≤ (visibleCommands router).length) (q : Nat) (h1 : 1 ≤ q)
    (h2 : q ≤ pageAmount router) :
    (∃ embed, renderDefaultGeneralHelpEmbed router now q = .ok (embed, (q : Int)) ∧
        embed.Fields = pageFields router now q) ∧
      pageFields router now q = (specPageWindow router q).map listField := by
  obtain ⟨embed, hrender, hfields⟩ := render_visible router now q pfx rest hp hn
  have hq : specEffectivePage router (q : Int) = (q : Int) := by
    unfold specEffectivePage
    omega
  rw [hq] at hrender hfields
  rw [Int.toNat_ofNat] at hfields
  have hpage : pageFields router now q = embed.Fields := by
    simp only [pageFields, hrender]
  exact ⟨⟨embed, hrender, hpage.symm⟩, by rw [hpage, hfields]⟩

theorem concatPages_eq_take (router : Router) (now : String) (pfx : String)
    (rest : List String) (hp : router.Prefixes = pfx :: rest)
    (hn : 1 ≤ (visibleCommands router).length) :
    ∀ k, k ≤ pageAmount router →
      concatPages router now k =
        ((visibleCommands router).take (min (k * 5) (visibleCommands router).length)).map
          listField := by
  intro k
  induction k with
  | zero => intro _; simp [concatPages]
  | succ k ih =>
    intro hk
    have hwin := (pageFields_eq_window router now pfx rest hp hn (k + 1) (by omega) hk).2
    rw [concatPages, ih (by omega), hwin, ← List.map_append]
    congr 1
    unfold specPageWindow
    have hlt : k * 5 < (visibleCommands router).length := by
      unfold pageAmount at hk
      omega
    have hmin : min (k * 5) (visibleCommands router).length = k * 5 := by omega
    have hsplit : min ((k + 1) * 5) (visibleCommands router).length =
        k * 5 + (min ((k + 1) * 5) (visibleCommands router).length - k * 5) := by omega
    rw [hmin, Nat.add_sub_cancel]
    conv_rhs => rw [hsplit, List.take_add]

/-- C19: with at least one visible command every page `1, ..., pageCount`
renders, and the fields of these pages, one page after the other, are exactly
the fields of all visible commands in their original order (so are the names).
Position `j` of page `q` shows the visible command of index `(q-1)*5 + j`, and
every index `i < n` is shown at exactly one place, position `i % 5` of page
`i / 5 + 1`. -/
theorem concatPages_eq_visible (router : Router) (now : String) (pfx : String)
    (rest : List String) (hp : router.Prefixes = pfx :: rest)
    (hn : 1 ≤ (visibleCommands router).length) :
    (∀ q : Nat, 1 ≤ q → q ≤ pageAmount router →
      ∃ embed, renderDefaultGeneralHelpEmbed router now q = .ok (embed, (q : Int)) ∧
        embed.Fields = pageFields router now q) ∧
      concatPages router now (pageAmount router) = (visibleCommands router).map listField ∧
      (concatPages router now (pageAmount router)).map MessageEmbedField.Name =
        (visibleCommands router).map Command.Name ∧
      (∀ q j : Nat, 1 ≤ q → q ≤ pageAmount router →
        (pageFields router now q)[j]? =
          if (q - 1) * 5 + j < min (q * 5) (visibleCommands router).length then
            ((visibleCommands router)[(q - 1) * 5 + j]?).map listField
          else none) ∧
      ∀ i q j : Nat, i < (visibleCommands router).length → 1 ≤ q → q ≤ pageAmount router →
        (((q - 1) * 5 + j = i ∧ (q - 1) * 5 + j < min (q * 5) (visibleCommands router).length) ↔
          (q = i / 5 + 1 ∧ j = i % 5)) := by
  have hconcat : concatPages router now (pageAmount router) =
      (visibleCommands router).map listField := by
    rw [concatPages_eq_take router now pfx rest hp hn _ (le_refl _)]
    have hmin : min (pageAmount router * 5) (visibleCommands router).length =
        (visibleCommands router).length := by
      unfold pageAmount
      omega
    rw [hmin, List.take_length]
  refine ⟨?_, hconcat, ?_, ?_, ?_⟩
  · intro q h1 h2
    exact (pageFields_eq_window router now pfx rest hp hn q h1 h2).1
  · rw [hconcat, List.map_map]
    rfl
  · intro q j h1 h2
    rw [(pageFields_eq_window router now pfx rest hp hn q h1 h2).2]
    unfold specPageWindow
    rw [List.getElem?_map, List.getElem?_take, List.getElem?_drop]
    by_cases hj : (q - 1) * 5 + j < min (q * 5) (visibleCommands router).length
    · rw [if_pos hj, if_pos (by omega)]
    · rw [if_neg hj, if_neg (by omega)]
      rfl
  · intro i q j hi h1 h2
    constructor
    · rintro ⟨h3, h4⟩
      omega
    · rintro ⟨h3, h4⟩
      omega

theorem concatPages_eq_visible_witness :
    (routerOf mixedCommands).Prefixes = "!" :: [] ∧
      1 ≤ (visibleCommands (routerOf mixedCommands)).length ∧
      pageAmount (routerOf mixedCommands) = 3 ∧
      concatPages (routerOf mixedCommands) "" (pageAmount (routerOf mixedCommands)) =
        (visibleCommands (routerOf mixedCommands)).map listField ∧
      (concatPages (routerOf mixedCommands) "" (pageAmount (routerOf mixedCommands))).map
          MessageEmbedField.Name =
        (visibleCommands (routerOf mixedCommands)).map Command.Name :=
  ⟨rfl, by decide, by decide,
    (concatPages_eq_visible (routerOf mixedCommands) "" "!" [] rfl (by decide)).2.1,
    (concatPages_eq_visible (routerOf mixedCommands) "" "!" [] rfl (by decide)).2.2.1⟩

end Dgc
